import Mathlib

/-!
# ELKS scancode keyboard driver

A shallow embedding of `elks/arch/i86/drivers/char/kbd-scancode.c`: the scancode
decoding pipeline of `keyboard_irq`, the modifier state it reads and mutates, and
the LED command protocol of `set_leds` / `restart_timer` / `kbd_send_cmd`.

Conventions of the embedding.

* C integers are natural numbers.  `unsigned int` is 16 bits wide on the i86
  target, so `~mode` (converted to `unsigned int`) is `0xFFFF ^^^ mode`.  Values
  of type `unsigned char` (table cells, the argument of `Console_conin`, `leds`)
  are reduced modulo 256 where they are produced.
* The global and static variables of the file are the fields of `KbdState`.
* The external collaborators are observed through logs kept in the state:
  `console` records the calls of `Console_conin`, `Console_set_vc` and
  `ctrl_alt_del` in order, `kbd_out` the bytes written to port `KEYBD`,
  `timer_arms` the number of `add_timer` calls, `polls` the number of reads of
  port `KB_STATUS`.
* What the file takes from its build configuration and from other files is a
  field of `Config`: the four keymap tables of `KeyMaps/keymaps.h`, the
  preprocessor switches, `kraw`, and the LED capability bit of `sys_caps`.
* The byte returned by `kb_read()` is the argument `raw` of `keyboard_irq`; the
  value read from `KB_STATUS` at the `k`-th poll is `status k`.
-/

set_option autoImplicit false

namespace KbdScancode

/-! ## Constants -/

/-- The ascii value for Escape. -/
def ESC : Nat := 27
/-- The scan code for the Delete key. -/
def SCAN_DEL : Nat := 0x53
/-- The scan code for the F1 key. -/
def SCAN_F1 : Nat := 0x3B
/-- The scan code for the Keypad 7 key. -/
def SCAN_KP7 : Nat := 0x47

def SLOCK : Nat := 0x00
def LSHIFT : Nat := 0x01
def RSHIFT : Nat := 0x02
def CTRL : Nat := 0x04
def ALT : Nat := 0x08
def CAPS : Nat := 0x10
def NUM : Nat := 0x20
/-- The AltGr bit; shared with alpha 'a'-'l' fnkeys. -/
def ALT_GR : Nat := 0x40
/-- The class of an extended scan code, generated by controller. -/
def EXT : Nat := 0x80
/-- The class of a simple scan code. -/
def SSC : Nat := 0xC0

/-- The status bit set when the controller is not ready to receive. -/
def KB_IN_FULL : Nat := 0x02
/-- The command to the keyboard to set LEDs. -/
def LED_CODE : Nat := 0xED

/-! ## Data model -/

/-- The stage of the LED command, `kb_cmd_state`. -/
inductive KbCmdState where
  | KS_FREE
  | KS_SETTING_LED_1
  | KS_SETTING_LED_2
  deriving DecidableEq, Repr

/-- A call to the console collaborators, in the order the driver makes them. -/
inductive ConEvent where
  | conin (b : Nat)
  | set_vc (n : Nat)
  | ctrl_alt_del
  deriving DecidableEq, Repr

/-- The build configuration and the external data the driver reads. -/
structure Config where
  /-- The variable `extern int kraw`. -/
  kraw : Nat
  /-- True when one of CONFIG_KEYMAP_DE, CONFIG_KEYMAP_SE, CONFIG_KEYMAP_FR is defined. -/
  keymap_altgr : Bool
  /-- True when CONFIG_EMUL_ANSI is defined. -/
  emul_ansi : Bool
  /-- The test `sys_caps & CAP_KBD_LEDS`. -/
  kbd_leds : Bool
  /-- The keymap for mode 0. -/
  xtkb_scan : Nat → Nat
  /-- The keymap for mode 1. -/
  xtkb_scan_shifted : Nat → Nat
  /-- The keymap for mode 2. -/
  xtkb_scan_caps : Nat → Nat
  /-- The keymap for mode 3. -/
  xtkb_scan_ctrl_alt : Nat → Nat

/-- The variables of the driver, and the logs of its calls to the outside. -/
structure KbdState where
  ModeState : Nat
  capslock : Nat
  numlock : Nat
  scrlock : Nat
  /-- The variable `static int E0Prefix` of `keyboard_irq`. -/
  E0Prefix : Nat
  kb_cmd_state : KbCmdState
  /-- Whether `kb_cmd_timer` is on the timer list. -/
  timer_pending : Bool
  /-- The number of `add_timer` calls made. -/
  timer_arms : Nat
  /-- The number of reads of port `KB_STATUS` made. -/
  polls : Nat
  /-- The bytes written to port `KEYBD`, oldest first. -/
  kbd_out : List Nat
  /-- The calls made to the console, oldest first. -/
  console : List ConEvent

/-- The state at boot: every static variable is zero, nothing has been logged. -/
def KbdState.init : KbdState :=
  { ModeState := 0, capslock := 0, numlock := 0, scrlock := 0, E0Prefix := 0,
    kb_cmd_state := KbCmdState.KS_FREE, timer_pending := false, timer_arms := 0,
    polls := 0, kbd_out := [], console := [] }

/-! ## Tables -/

/-- Table for mapping scancodes >= 0x1C into scan code class. -/
def tb_state : List Nat :=
  [ SSC, CTRL, SSC, SSC,
    SSC, SSC, SSC, SSC, SSC, SSC, SSC, SSC,
    SSC, SSC, LSHIFT, SSC, SSC, SSC, SSC, SSC,
    SSC, SSC, SSC, SSC, SSC, SSC, RSHIFT, SSC,
    ALT, SSC, CAPS,
    0x61, 0x62, 0x63, 0x64, 0x65,
    0x66, 0x67, 0x68, 0x69, 0x6A,
    NUM, SLOCK, SSC,
    SSC, SSC, SSC, SSC, SSC, SSC, SSC, SSC,
    SSC, SSC, SSC, SSC, SSC, SSC, SSC, 0x6B, 0x6C ]

/-- The last index of `tb_state`. -/
def TB_STATE_MAX : Nat := tb_state.length - 1

/-- Map CAPS|ALT|CTL|SHIFT into NORMAL,SHIFT,CAPS,CTL-ALT. -/
def state_code : List Nat :=
  [0, 1, 0, 1, 0, 1, 3, 1, 2, 2, 0, 2, 0, 2, 3, 3]

/-- The cell `*(scan_tabs[mode] + code)`, an `unsigned char`. -/
def scan_tabs (cfg : Config) (mode code : Nat) : Nat :=
  match mode with
  | 0 => cfg.xtkb_scan code % 256
  | 1 => cfg.xtkb_scan_shifted code % 256
  | 2 => cfg.xtkb_scan_caps code % 256
  | 3 => cfg.xtkb_scan_ctrl_alt code % 256
  | _ => 0

/-! ## Console and hardware primitives -/

/-- The call `Console_conin(b)`; the parameter is an `unsigned char`. -/
def Console_conin (s : KbdState) (b : Nat) : KbdState :=
  { s with console := s.console ++ [ConEvent.conin (b % 256)] }

/-- The call `Console_set_vc(n)`. -/
def Console_set_vc (s : KbdState) (n : Nat) : KbdState :=
  { s with console := s.console ++ [ConEvent.set_vc n] }

/-- The call `ctrl_alt_del()`, the request for a system reset made to the console
control interface: the request is recorded, and the call returns. -/
def ctrl_alt_del (s : KbdState) : KbdState :=
  { s with console := s.console ++ [ConEvent.ctrl_alt_del] }

/-- The call `outb_p(v, KEYBD)`. -/
def outb_KEYBD (s : KbdState) (v : Nat) : KbdState :=
  { s with kbd_out := s.kbd_out ++ [v % 256] }

/-- The call `inb_p(KB_STATUS)`: the next value of the status port. -/
def inb_KB_STATUS (status : Nat → Nat) (s : KbdState) : Nat × KbdState :=
  (status s.polls, { s with polls := s.polls + 1 })

/-- The C operator `!` on an int. -/
def lnot (x : Nat) : Nat := if x = 0 then 1 else 0

/-! ## LED protocol -/

/-- Arrange to call kbd_send_cmd() after a short period of time:
`del_timer` followed by `add_timer`. -/
def restart_timer (s : KbdState) : KbdState :=
  { s with timer_pending := true, timer_arms := s.timer_arms + 1 }

/-- Set the LEDs on the caps, num, and scroll lock keys. -/
def set_leds (cfg : Config) (s : KbdState) : KbdState :=
  if cfg.kbd_leds = false then s
  else if s.kb_cmd_state = KbCmdState.KS_FREE then
    restart_timer { s with kb_cmd_state := KbCmdState.KS_SETTING_LED_1 }
  else s

/-- The LED byte `scrlock | (numlock << 1) | (capslock << 2)`, an `unsigned char`. -/
def leds (s : KbdState) : Nat :=
  (s.scrlock ||| (s.numlock <<< 1) ||| (s.capslock <<< 2)) % 256

/-- The function `kbd_send_cmd`: each unit of fuel is one pass of its `for (;;)`
loop; `none` means the fuel ran out before the function returned. -/
def kbd_send_cmd (status : Nat → Nat) : Nat → KbdState → Option KbdState
  | 0, _ => none
  | fuel + 1, s =>
    match s.kb_cmd_state with
    | KbCmdState.KS_SETTING_LED_1 =>
      let r := inb_KB_STATUS status s
      if r.1 &&& KB_IN_FULL ≠ 0 then some (restart_timer r.2)
      else
        kbd_send_cmd status fuel
          { outb_KEYBD r.2 LED_CODE with kb_cmd_state := KbCmdState.KS_SETTING_LED_2 }
    | KbCmdState.KS_SETTING_LED_2 =>
      let r := inb_KB_STATUS status s
      if r.1 &&& KB_IN_FULL ≠ 0 then some (restart_timer r.2)
      else
        some { outb_KEYBD r.2 (leds r.2) with kb_cmd_state := KbCmdState.KS_FREE }
    | KbCmdState.KS_FREE => some s

/-- A run of `n` successive calls of `kbd_send_cmd`. -/
def kbd_send_calls (status : Nat → Nat) (fuel : Nat) : Nat → KbdState → Option KbdState
  | 0, s => some s
  | n + 1, s => (kbd_send_cmd status fuel s).bind (kbd_send_calls status fuel n)

/-! ## Decoding pipeline -/

/-- Step 1: classify the scancode. -/
def classify (code : Nat) : Nat :=
  if code ≥ 0x1C ∧ code - 0x1C ≤ TB_STATE_MAX then tb_state.getD (code - 0x1C) 0
  else SSC

/-- The block under `#if defined(CONFIG_KEYMAP_DE) || ...`: ALT_GR has a E0 prefix. -/
def altgr_mode (cfg : Config) (mode : Nat) (E0key : Bool) : Nat :=
  if cfg.keymap_altgr = true ∧ mode = ALT ∧ E0key = true then ALT_GR else mode

/-- Process status keys: the branch `if (!(mode & 0xC0))` of `keyboard_irq`. -/
def status_key (cfg : Config) (s : KbdState) (mode0 : Nat) (E0key : Bool)
    (keyReleased : Nat) : KbdState :=
  let mode := altgr_mode cfg mode0 E0key
  if keyReleased ≠ 0 then
    let r : KbdState × Nat :=
      if mode = CAPS then
        let c := lnot s.capslock
        (set_leds cfg { s with capslock := c }, if c ≠ 0 then 0 else mode)
      else if mode = NUM then
        let c := lnot s.numlock
        (set_leds cfg { s with numlock := c }, if c ≠ 0 then 0 else mode)
      else if mode = SLOCK then
        let c := lnot s.scrlock
        (set_leds cfg { s with scrlock := c }, if c ≠ 0 then 0 else mode)
      else (s, mode)
    { r.1 with ModeState := r.1.ModeState &&& (0xFFFF ^^^ r.2) }
  else
    { s with ModeState := s.ModeState ||| mode }

/-- Handle function keys: `case 0x40`.  Every scancode of this class is at least
`SCAN_F1`, so the subtraction does not wrap. -/
def fn_key (s : KbdState) (code mode : Nat) : KbdState :=
  if s.ModeState &&& ALT ≠ 0 ∧ code ≤ SCAN_F1 + 2 then
    Console_set_vc s (code - SCAN_F1)
  else
    Console_conin (Console_conin s ESC) mode

/-- Handle extended scancodes: `case 0x80` when `E0key` is set. -/
def ext_key (cfg : Config) (s : KbdState) (mode0 : Nat) : KbdState :=
  let mode := mode0 &&& 0x3F
  let s1 :=
    if mode ≠ 0 then
      let s2 := Console_conin s ESC
      if cfg.emul_ansi = true then Console_conin s2 0x5B else s2
    else s
  Console_conin s1 (mode + 10)

/-- The index `((ModeState & (CAPS|ALT|CTRL|RSHIFT)) >> 1) | (ModeState & LSHIFT)`. -/
def row_index (ms : Nat) : Nat :=
  ((ms &&& (CAPS ||| ALT ||| CTRL ||| RSHIFT)) >>> 1) ||| (ms &&& LSHIFT)

/-- Step 2: the mode picked by `state_code`. -/
def step2 (ms : Nat) : Nat := state_code.getD (row_index ms) 0

/-- Step 3: handle CAPS table specially based on SHIFT status. -/
def step3 (cfg : Config) (ms code mode : Nat) : Nat :=
  if mode = 2 then
    let key := scan_tabs cfg 2 code
    if key = 0 then (if ms &&& (RSHIFT ||| LSHIFT) ≠ 0 then 1 else 0)
    else (if ms &&& (RSHIFT ||| LSHIFT) ≠ 0 then 0 else 2)
  else mode

/-- Step 4, first part: ALT_GR selects the CTL-ALT table. -/
def step4_altgr (ms mode : Nat) : Nat :=
  if mode = 0 ∧ ms &&& ALT_GR ≠ 0 then 3 else mode

/-- Step 4, second part: the 10 key keypad under NUM. -/
def step4_keypad (ms code mode : Nat) : Nat :=
  if ms &&& NUM ≠ 0 ∧ code ≥ SCAN_KP7 then
    (if ms &&& LSHIFT ≠ 0 then 0 else 1)
  else mode

/-- The mode that indexes `scan_tabs` in step 5, after steps 2 to 4. -/
def select_mode (cfg : Config) (ms code : Nat) : Nat :=
  step4_keypad ms code (step4_altgr ms (step3 cfg ms code (step2 ms)))

/-- Step 7, the `switch (key)`: the pair `(code, mode)` it leaves. -/
def ansi_code (key : Nat) : Nat × Nat :=
  if key = 0o270 then (0x41, 0)
  else if key = 0o262 then (0x42, 0)
  else if key = 0o266 then (0x43, 0)
  else if key = 0o264 then (0x44, 0)
  else if key = 0o267 then (0x48, 0)
  else if key = 0o261 then (0x46, 0)
  else if key = 0o272 then (0x32, 0x7E)
  else if key = 0o271 then (0x35, 0x7E)
  else if key = 0o263 then (0x36, 0x7E)
  else (0, 0)

/-- Step 7 and the final `Console_conin(key)`. -/
def step7 (cfg : Config) (s : KbdState) (key : Nat) : KbdState :=
  if cfg.emul_ansi = true then
    let cm := ansi_code key
    if cm.1 ≠ 0 then
      let s3 := Console_conin (Console_conin (Console_conin s ESC) 0x5B) cm.1
      if cm.2 ≠ 0 then Console_conin s3 cm.2 else s3
    else Console_conin s key
  else Console_conin s key

/-- Step 6, then step 7: modify the keyboard character `key` read in step 5. -/
def step6 (cfg : Config) (s : KbdState) (key : Nat) : KbdState :=
  if s.ModeState &&& (CTRL ||| ALT) = ALT ∧ 0x31 ≤ key ∧ key ≤ 0x33 then
    Console_set_vc s (key - 0x31)
  else
    let key1 := if s.ModeState &&& (CTRL ||| ALT) = ALT then key ||| 0x80 else key
    let key2 := if key1 = 0 then 0x40 else key1
    let key3 := if s.ModeState &&& (CTRL ||| ALT) = CTRL then key2 &&& 0x1F else key2
    step7 cfg s key3

/-- Handle simple scan codes: the `default` case.  The source has no `return`
after the call of `ctrl_alt_del()`, so the steps 2 to 7 follow it. -/
def simple_key (cfg : Config) (s : KbdState) (code : Nat) : KbdState :=
  let s1 :=
    if code = SCAN_DEL ∧ s.ModeState &&& (CTRL ||| ALT) = (CTRL ||| ALT) then ctrl_alt_del s
    else s
  let mode := select_mode cfg s1.ModeState code
  let key := scan_tabs cfg mode code
  step6 cfg s1 key

/-- The keyboard interrupt handler, given the byte `raw` that `kb_read()` returned. -/
def keyboard_irq (cfg : Config) (s : KbdState) (raw : Nat) : KbdState :=
  if cfg.kraw ≠ 0 then Console_conin s raw
  else if raw = 0xE0 then { s with E0Prefix := 1 }
  else
    let E0key : Bool := decide (s.E0Prefix ≠ 0)
    let s0 : KbdState := { s with E0Prefix := 0 }
    let keyReleased := raw &&& 0x80
    let code := raw &&& 0x7F
    let mode := classify code
    if mode &&& 0xC0 = 0 then status_key cfg s0 mode E0key keyReleased
    else if keyReleased ≠ 0 then s0
    else if mode &&& 0xC0 = 0x40 then fn_key s0 code mode
    else if mode &&& 0xC0 = 0x80 ∧ E0key = true then ext_key cfg s0 mode
    else simple_key cfg s0 code

/-- Process a sequence of bytes, one interrupt each. -/
def keyboard_irqs (cfg : Config) (s : KbdState) (raws : List Nat) : KbdState :=
  raws.foldl (keyboard_irq cfg) s

/-! ## Vocabulary of the statements -/

/-- A keymap for examples: `a`, `A` at scancode 0x1E with an empty caps cell,
`s`, `S` at 0x1F with caps cell `S`, `1`, `!` at 0x02, the Up key (0270) and `8`
at 0x48, and nothing elsewhere. -/
def Config.sample : Config :=
  { kraw := 0, keymap_altgr := true, emul_ansi := true, kbd_leds := true,
    xtkb_scan := fun c => if c = 0x1E then 0x61 else if c = 0x1F then 0x73
      else if c = 0x02 then 0x31 else if c = 0x48 then 0o270 else 0,
    xtkb_scan_shifted := fun c => if c = 0x1E then 0x41 else if c = 0x1F then 0x53
      else if c = 0x02 then 0x21 else if c = 0x48 then 0x38 else 0,
    xtkb_scan_caps := fun c => if c = 0x1F then 0x53 else 0,
    xtkb_scan_ctrl_alt := fun _ => 0 }

/-- The scancodes of the modifier and lock keys. -/
def modifier_scancodes : List Nat := [0x1D, 0x2A, 0x36, 0x38, 0x3A, 0x45, 0x46]

/-- The momentary modifiers. -/
inductive Momentary where
  | LeftShift
  | RightShift
  | Ctrl
  | Alt
  | AltGr
  deriving DecidableEq, Repr

/-- The scancode of a momentary modifier. -/
def Momentary.scancode : Momentary → Nat
  | .LeftShift => 0x2A
  | .RightShift => 0x36
  | .Ctrl => 0x1D
  | .Alt => 0x38
  | .AltGr => 0x38

/-- The bit of a momentary modifier in `ModeState`. -/
def Momentary.mask : Momentary → Nat
  | .LeftShift => LSHIFT
  | .RightShift => RSHIFT
  | .Ctrl => CTRL
  | .Alt => ALT
  | .AltGr => ALT_GR

/-- Whether the next event with the scancode of `m` is an event of `m`: scancode
0x38 is AltGr when it carries the extended flag under a keymap with AltGr, and
Alt otherwise; the other scancodes name their key with or without the flag. -/
def Momentary.arrives (cfg : Config) (s : KbdState) : Momentary → Prop
  | .Alt => ¬ (cfg.keymap_altgr = true ∧ s.E0Prefix ≠ 0)
  | .AltGr => cfg.keymap_altgr = true ∧ s.E0Prefix ≠ 0
  | _ => True

instance (cfg : Config) (s : KbdState) (m : Momentary) : Decidable (m.arrives cfg s) := by
  cases m <;> simp only [Momentary.arrives] <;> exact inferInstance

/-- The lock keys. -/
inductive LockKey where
  | CapsLock
  | NumLock
  | ScrollLock
  deriving DecidableEq, Repr

/-- The scancode of a lock key. -/
def LockKey.scancode : LockKey → Nat
  | .CapsLock => 0x3A
  | .NumLock => 0x45
  | .ScrollLock => 0x46

/-- The mask of a lock key in `ModeState`, as `tb_state` gives it. -/
def LockKey.mask : LockKey → Nat
  | .CapsLock => CAPS
  | .NumLock => NUM
  | .ScrollLock => SLOCK

/-- The latch variable of a lock key. -/
def LockKey.latch (s : KbdState) : LockKey → Nat
  | .CapsLock => s.capslock
  | .NumLock => s.numlock
  | .ScrollLock => s.scrlock

/-- The bit of the lock key is set in `ModeState`. -/
def LockKey.bitOn (s : KbdState) (L : LockKey) : Prop := s.ModeState &&& L.mask ≠ 0

instance (s : KbdState) (L : LockKey) : Decidable (L.bitOn s) := by
  unfold LockKey.bitOn; exact inferInstance

/-- The latch of the lock key is on. -/
def LockKey.latchOn (s : KbdState) (L : LockKey) : Prop := L.latch s ≠ 0

instance (s : KbdState) (L : LockKey) : Decidable (L.latchOn s) := by
  unfold LockKey.latchOn; exact inferInstance

/-- One toggle of a lock key: its press event followed by its release event. -/
def toggle (cfg : Config) (L : LockKey) (s : KbdState) : KbdState :=
  keyboard_irq cfg (keyboard_irq cfg s L.scancode) (L.scancode + 0x80)

/-- A press event of a simple key: the raw byte has its high bit clear and its
scancode is classed as a simple scan code. -/
def simple_press (X : Nat) : Prop := X < 0x80 ∧ classify X &&& 0xC0 = 0xC0

instance (X : Nat) : Decidable (simple_press X) := by
  unfold simple_press; exact inferInstance

/-- A shift key is held: the LSHIFT or the RSHIFT bit of `ModeState` is set. -/
def shift_held (ms : Nat) : Prop := ms &&& LSHIFT ≠ 0 ∨ ms &&& RSHIFT ≠ 0

instance (ms : Nat) : Decidable (shift_held ms) := by
  unfold shift_held; exact inferInstance

/-- The escape table as the specification words it: the raw value of a key and
the bytes that follow ESC `[` for it. -/
def escape_table : List (Nat × List Nat) :=
  [ (0o270, [0x41]), (0o262, [0x42]), (0o266, [0x43]), (0o264, [0x44]),
    (0o267, [0x48]), (0o261, [0x46]),
    (0o272, [0x32, 0x7E]), (0o271, [0x35, 0x7E]), (0o263, [0x36, 0x7E]) ]

/-- The bytes the Escape Translator is specified to emit for the key byte `k`. -/
def escape_bytes (enabled : Bool) (k : Nat) : List Nat :=
  if enabled = true then
    match escape_table.lookup k with
    | some tail => [0x1B, 0x5B] ++ tail
    | none => [k]
  else [k]

/-- The effect of one call of `kbd_send_cmd` that finds the controller busy: one
poll of the status port and one re-arming of the timer. -/
def busy_attempt (s : KbdState) : KbdState :=
  restart_timer { s with polls := s.polls + 1 }

/-- The stages of one LED cycle that started with `o` written to the keyboard
port, whose data byte, once sent, is `l`: nothing sent yet, the command byte
sent, or both bytes sent. -/
def LedCycle (o : List Nat) (l : Nat) (s : KbdState) : Prop :=
  leds s = l ∧
  ((s.kb_cmd_state = KbCmdState.KS_SETTING_LED_1 ∧ s.kbd_out = o) ∨
   (s.kb_cmd_state = KbCmdState.KS_SETTING_LED_2 ∧ s.kbd_out = o ++ [0xED]) ∨
   (s.kb_cmd_state = KbCmdState.KS_FREE ∧ s.kbd_out = o ++ [0xED, l]))

instance (o : List Nat) (l : Nat) (s : KbdState) : Decidable (LedCycle o l s) := by
  unfold LedCycle; exact inferInstance

/-- The scancode of the function key `Fn`, for `n` from 1 to 12. -/
def fn_scancode (n : Nat) : Nat :=
  if n ≤ 10 then 0x3B + (n - 1) else if n = 11 then 0x57 else 0x58

/-- Modelled from the spec: the expiry of `kb_cmd_timer` in the timer service,
which is not part of this file.  A scheduled callback runs once: an expiry needs
the timer to be pending, takes it off the timer list and calls its
`tl_function`, which `restart_timer` has set to `kbd_send_cmd`. -/
def timer_fire (status : Nat → Nat) (fuel : Nat) (s : KbdState) : Option KbdState :=
  if s.timer_pending = true then kbd_send_cmd status fuel { s with timer_pending := false }
  else none

/-- One step of the driver as the LED protocol sees it: a call of `set_leds`, a
keyboard interrupt, or the expiry of the pending timer. -/
inductive LedStep (cfg : Config) (status : Nat → Nat) (fuel : Nat) :
    KbdState → KbdState → Prop where
  | trigger (s : KbdState) : LedStep cfg status fuel s (set_leds cfg s)
  | irq (s : KbdState) (raw : Nat) : LedStep cfg status fuel s (keyboard_irq cfg s raw)
  | fire (s s2 : KbdState) : timer_fire status fuel s = some s2 → LedStep cfg status fuel s s2

/-- The states the steps reach from a state in KS_FREE with no timer pending. -/
inductive LedReachable (cfg : Config) (status : Nat → Nat) (fuel : Nat) : KbdState → Prop where
  | start (s : KbdState) : s.kb_cmd_state = KbCmdState.KS_FREE → s.timer_pending = false →
      LedReachable cfg status fuel s
  | step (s s2 : KbdState) : LedReachable cfg status fuel s → LedStep cfg status fuel s s2 →
      LedReachable cfg status fuel s2

/-- The LED protocol is in flight exactly when the retry timer is pending. -/
def LedLive (s : KbdState) : Prop :=
  s.kb_cmd_state ≠ KbCmdState.KS_FREE ↔ s.timer_pending = true

/-- Whether every release of the lock key `L` in the byte sequence comes while
the key is down, that is after a press of `L` with no release of `L` since;
`down` says whether the key is down before the first byte. -/
def releases_paired (L : LockKey) : Bool → List Nat → Bool
  | _, [] => true
  | down, b :: bs =>
    if b &&& 0x7F = L.scancode then
      if b &&& 0x80 = 0 then releases_paired L true bs
      else down && releases_paired L false bs
    else releases_paired L down bs

/-- Whether the lock key `L` is down after the byte sequence. -/
def key_down (L : LockKey) : Bool → List Nat → Bool
  | down, [] => down
  | down, b :: bs =>
    key_down L (if b &&& 0x7F = L.scancode then decide (b &&& 0x80 = 0) else down) bs

/-- The bit of the lock key `L` is set whenever `L` is down or its latch is on,
in a 16-bit `ModeState`. -/
def LatchedBit (L : LockKey) (s : KbdState) (down : Bool) : Prop :=
  s.ModeState < 2 ^ 16 ∧ (down = true → L.bitOn s) ∧ (L.latchOn s → L.bitOn s)

/-! ## Bit-level facts -/

theorem testBit_ge_16 (a i : Nat) (ha : a < 2 ^ 16) (hi : 16 ≤ i) : a.testBit i = false :=
  Nat.testBit_lt_two_pow (lt_of_lt_of_le ha (Nat.pow_le_pow_right (by decide) hi))

theorem testBit_clear (a m i : Nat) (ha : a < 2 ^ 16) :
    (a &&& (0xFFFF ^^^ m)).testBit i = (a.testBit i && !m.testBit i) := by
  have h : (0xFFFF : Nat) = 2 ^ 16 - 1 := by norm_num
  rw [Nat.testBit_and, Nat.testBit_xor, h, Nat.testBit_two_pow_sub_one]
  by_cases hi : i < 16
  · simp [hi]
  · rw [testBit_ge_16 a i ha (by omega)]
    simp

theorem clear_lt (a m : Nat) (ha : a < 2 ^ 16) : a &&& (0xFFFF ^^^ m) < 2 ^ 16 :=
  lt_of_le_of_lt Nat.and_le_left ha

theorem and_two_pow_eq_zero_iff (a k : Nat) : a &&& 2 ^ k = 0 ↔ a.testBit k = false := by
  constructor
  · intro h
    have := congrArg (fun x => x.testBit k) h
    simpa [Nat.testBit_two_pow_self] using this
  · intro h
    apply Nat.eq_of_testBit_eq
    intro i
    rw [Nat.testBit_and, Nat.testBit_two_pow]
    by_cases hki : k = i
    · subst hki; simp [h]
    · simp [hki]

theorem or_and_self_mask (a m : Nat) : (a ||| m) &&& m = m := by
  apply Nat.eq_of_testBit_eq
  intro i
  rw [Nat.testBit_and, Nat.testBit_or]
  cases a.testBit i <;> cases m.testBit i <;> rfl

theorem clear_and_mask (a m : Nat) (ha : a < 2 ^ 16) : (a &&& (0xFFFF ^^^ m)) &&& m = 0 := by
  apply Nat.eq_of_testBit_eq
  intro i
  rw [Nat.testBit_and, testBit_clear a m i ha, Nat.zero_testBit]
  cases a.testBit i <;> cases m.testBit i <;> rfl

/-! ## The status-key branch -/

theorem set_leds_console (cfg : Config) (s : KbdState) :
    (set_leds cfg s).console = s.console := by
  unfold set_leds restart_timer
  split_ifs <;> rfl

theorem status_key_console (cfg : Config) (s : KbdState) (mode0 : Nat) (E0key : Bool)
    (keyReleased : Nat) : (status_key cfg s mode0 E0key keyReleased).console = s.console := by
  unfold status_key
  simp only []
  split_ifs <;> simp [set_leds_console]

theorem keyboard_irq_status (cfg : Config) (s : KbdState) (raw : Nat) (hk : cfg.kraw = 0)
    (hraw : raw ≠ 0xE0) (hm : classify (raw &&& 0x7F) &&& 0xC0 = 0) :
    keyboard_irq cfg s raw =
      status_key cfg { s with E0Prefix := 0 } (classify (raw &&& 0x7F))
        (decide (s.E0Prefix ≠ 0)) (raw &&& 0x80) := by
  unfold keyboard_irq
  simp [hk, hraw, hm]

theorem status_key_press (cfg : Config) (s : KbdState) (mode0 : Nat) (E0key : Bool) :
    status_key cfg s mode0 E0key 0 =
      { s with ModeState := s.ModeState ||| altgr_mode cfg mode0 E0key } := by
  simp [status_key]

theorem status_key_release (cfg : Config) (s : KbdState) (mode0 rel : Nat) (E0key : Bool)
    (hrel : rel ≠ 0) (h1 : altgr_mode cfg mode0 E0key ≠ CAPS)
    (h2 : altgr_mode cfg mode0 E0key ≠ NUM) (h3 : altgr_mode cfg mode0 E0key ≠ SLOCK) :
    status_key cfg s mode0 E0key rel =
      { s with ModeState := s.ModeState &&& (0xFFFF ^^^ altgr_mode cfg mode0 E0key) } := by
  simp [status_key, hrel, h1, h2, h3]

theorem momentary_mode (cfg : Config) (s : KbdState) (m : Momentary) (harr : m.arrives cfg s)
    (raw : Nat) (hraw : raw = m.scancode ∨ raw = m.scancode + 0x80) :
    altgr_mode cfg (classify (raw &&& 0x7F)) (decide (s.E0Prefix ≠ 0)) = m.mask := by
  have hc : classify (raw &&& 0x7F) = (if m = .AltGr then ALT else m.mask) := by
    rcases hraw with h | h <;> subst h <;> cases m <;> decide
  rw [hc]
  cases m <;> simp [altgr_mode, Momentary.arrives, Momentary.mask, ALT, ALT_GR, LSHIFT,
    RSHIFT, CTRL] at harr ⊢
  · exact harr
  · exact harr

/-! ## Modifier and lock events -/

/-- C1: with raw mode off, the press or the release of any of the modifier and
lock scancodes (0x1D, 0x2A, 0x36, 0x38, 0x3A, 0x45, 0x46), with or without a
pending extended flag, under any keymap configuration and from any state, leaves
the console log as it was: no byte, no console switch and no reset. -/
theorem modifier_event_emits_nothing (cfg : Config) (s : KbdState) (code : Nat)
    (released : Bool) (hk : cfg.kraw = 0) (hc : code ∈ modifier_scancodes) :
    (keyboard_irq cfg s (code + (if released then 0x80 else 0))).console = s.console := by
  have h : (code + (if released then 0x80 else 0)) ≠ 0xE0 ∧
      classify ((code + (if released then 0x80 else 0)) &&& 0x7F) &&& 0xC0 = 0 := by
    simp only [modifier_scancodes, List.mem_cons, List.mem_singleton, List.not_mem_nil,
      or_false] at hc
    rcases hc with h | h | h | h | h | h | h <;> subst h <;> cases released <;> decide
  rw [keyboard_irq_status cfg s _ hk h.1 h.2, status_key_console]

/-- Witness of C1: the release of AltGr (0x38 after the prefix) from a state with
every modifier bit set and every latch on. -/
theorem modifier_event_emits_nothing_witness :
    (keyboard_irq Config.sample
      { KbdState.init with ModeState := 0x7F, capslock := 1, numlock := 1, scrlock := 1,
                           E0Prefix := 1 }
      (0x38 + (if true then 0x80 else 0))).console = [] :=
  modifier_event_emits_nothing Config.sample _ 0x38 true rfl (by decide)

/-- C2: for each momentary modifier (LeftShift, RightShift, Ctrl, Alt, AltGr),
from any 16-bit `ModeState` and any latches, the press event leaves the bit of
the modifier set, the release event leaves it clear, and both leave every other
bit of `ModeState` and the three latches as they were. -/
theorem momentary_press_release (cfg : Config) (s : KbdState) (m : Momentary)
    (hk : cfg.kraw = 0) (hms : s.ModeState < 2 ^ 16) (harr : m.arrives cfg s) :
    (keyboard_irq cfg s m.scancode).ModeState &&& m.mask = m.mask ∧
    (keyboard_irq cfg s (m.scancode + 0x80)).ModeState &&& m.mask = 0 ∧
    (∀ i, m.mask.testBit i = false →
      (keyboard_irq cfg s m.scancode).ModeState.testBit i = s.ModeState.testBit i ∧
      (keyboard_irq cfg s (m.scancode + 0x80)).ModeState.testBit i = s.ModeState.testBit i) ∧
    (∀ raw, raw = m.scancode ∨ raw = m.scancode + 0x80 →
      (keyboard_irq cfg s raw).capslock = s.capslock ∧
      (keyboard_irq cfg s raw).numlock = s.numlock ∧
      (keyboard_irq cfg s raw).scrlock = s.scrlock) := by
  have hp : keyboard_irq cfg s m.scancode =
      { s with E0Prefix := 0, ModeState := s.ModeState ||| m.mask } := by
    rw [keyboard_irq_status cfg s _ hk (by cases m <;> decide) (by cases m <;> decide),
      show m.scancode &&& 0x80 = 0 by cases m <;> decide, status_key_press,
      momentary_mode cfg s m harr _ (Or.inl rfl)]
  have hr : keyboard_irq cfg s (m.scancode + 0x80) =
      { s with E0Prefix := 0, ModeState := s.ModeState &&& (0xFFFF ^^^ m.mask) } := by
    have hmode := momentary_mode cfg s m harr _ (Or.inr rfl)
    rw [keyboard_irq_status cfg s _ hk (by cases m <;> decide) (by cases m <;> decide),
      status_key_release cfg _ _ _ _ (by cases m <;> decide)
        (by rw [hmode]; cases m <;> decide) (by rw [hmode]; cases m <;> decide)
        (by rw [hmode]; cases m <;> decide), hmode]
  refine ⟨?_, ?_, ?_, ?_⟩
  · rw [hp]; exact or_and_self_mask _ _
  · rw [hr]; exact clear_and_mask _ _ hms
  · intro i hi
    rw [hp, hr]
    simp only []
    rw [testBit_clear _ _ _ hms, Nat.testBit_or, hi]
    simp
  · intro raw hraw
    rcases hraw with h | h <;> subst h
    · rw [hp]; exact ⟨rfl, rfl, rfl⟩
    · rw [hr]; exact ⟨rfl, rfl, rfl⟩

/-- Witness of C2: AltGr (0x38 after the prefix, under a keymap with AltGr) pressed
and released from a state with the six lower bits set. -/
theorem momentary_press_release_witness :
    (keyboard_irq Config.sample { KbdState.init with ModeState := 0x3F, E0Prefix := 1 }
      0x38).ModeState &&& ALT_GR = ALT_GR ∧
    (keyboard_irq Config.sample { KbdState.init with ModeState := 0x7F, E0Prefix := 1 }
      (0x38 + 0x80)).ModeState &&& ALT_GR = 0 :=
  ⟨(momentary_press_release Config.sample
      { KbdState.init with ModeState := 0x3F, E0Prefix := 1 } Momentary.AltGr rfl
      (by decide) (by decide)).1,
   (momentary_press_release Config.sample
      { KbdState.init with ModeState := 0x7F, E0Prefix := 1 } Momentary.AltGr rfl
      (by decide) (by decide)).2.1⟩

@[simp] theorem set_leds_ModeState (cfg : Config) (s : KbdState) :
    (set_leds cfg s).ModeState = s.ModeState := by
  unfold set_leds restart_timer
  split_ifs <;> rfl

@[simp] theorem set_leds_capslock (cfg : Config) (s : KbdState) :
    (set_leds cfg s).capslock = s.capslock := by
  unfold set_leds restart_timer
  split_ifs <;> rfl

@[simp] theorem set_leds_numlock (cfg : Config) (s : KbdState) :
    (set_leds cfg s).numlock = s.numlock := by
  unfold set_leds restart_timer
  split_ifs <;> rfl

@[simp] theorem set_leds_scrlock (cfg : Config) (s : KbdState) :
    (set_leds cfg s).scrlock = s.scrlock := by
  unfold set_leds restart_timer
  split_ifs <;> rfl

theorem clear_zero (a : Nat) (ha : a < 2 ^ 16) : a &&& (0xFFFF ^^^ 0) = a := by
  apply Nat.eq_of_testBit_eq
  intro i
  rw [testBit_clear a 0 i ha]
  simp

theorem lnot_ne_zero (x : Nat) : lnot x ≠ 0 ↔ x = 0 := by
  unfold lnot; split_ifs <;> simp [*]

theorem lock_mode (cfg : Config) (L : LockKey) (e : Bool) (raw : Nat)
    (hraw : raw = L.scancode ∨ raw = L.scancode + 0x80) :
    raw ≠ 0xE0 ∧ classify (raw &&& 0x7F) &&& 0xC0 = 0 ∧
    altgr_mode cfg (classify (raw &&& 0x7F)) e = L.mask := by
  have hc : raw ≠ 0xE0 ∧ classify (raw &&& 0x7F) &&& 0xC0 = 0 ∧
      classify (raw &&& 0x7F) = L.mask := by
    rcases hraw with h | h <;> subst h <;> cases L <;> decide
  refine ⟨hc.1, hc.2.1, ?_⟩
  rw [hc.2.2]
  cases L <;> simp [altgr_mode, LockKey.mask, ALT, CAPS, NUM, SLOCK]

/-- The fields a toggle of a lock key leaves. -/
theorem toggle_fields (cfg : Config) (L : LockKey) (s : KbdState) (hk : cfg.kraw = 0)
    (hms : s.ModeState < 2 ^ 16) :
    (toggle cfg L s).ModeState =
      (if L.latch s = 0 then s.ModeState ||| L.mask
       else (s.ModeState ||| L.mask) &&& (0xFFFF ^^^ L.mask)) ∧
    L.latch (toggle cfg L s) = lnot (L.latch s) ∧
    (∀ L2, L2 ≠ L → L2.latch (toggle cfg L s) = L2.latch s) := by
  have hor : s.ModeState ||| L.mask < 2 ^ 16 :=
    Nat.or_lt_two_pow hms (by cases L <;> decide)
  obtain ⟨p1, p2, p3⟩ := lock_mode cfg L (decide (s.E0Prefix ≠ 0)) L.scancode (Or.inl rfl)
  have hp : keyboard_irq cfg s L.scancode =
      { s with E0Prefix := 0, ModeState := s.ModeState ||| L.mask } := by
    rw [keyboard_irq_status cfg s _ hk p1 p2,
      show L.scancode &&& 0x80 = 0 by cases L <;> decide, status_key_press, p3]
  obtain ⟨r1, r2, r3⟩ := lock_mode cfg L false (L.scancode + 0x80) (Or.inr rfl)
  unfold toggle
  rw [hp, keyboard_irq_status cfg _ _ hk r1 r2]
  have hrel : (L.scancode + 0x80) &&& 0x80 ≠ 0 := by cases L <;> decide
  simp only [ne_eq, not_true_eq_false, decide_False]
  unfold status_key
  rw [r3]
  simp only [hrel, ne_eq, not_false_eq_true, if_true]
  have h65535 : (s.ModeState ||| L.mask) &&& 65535 = s.ModeState ||| L.mask := by
    have := clear_zero _ hor
    simpa using this
  refine ⟨?_, ?_, ?_⟩
  · cases L <;> simp only [LockKey.latch, LockKey.mask, CAPS, NUM, SLOCK] at h65535 ⊢ <;>
      simp [lnot] <;> split_ifs <;> simp_all
  · cases L <;> simp [LockKey.latch, LockKey.mask, CAPS, NUM, SLOCK]
  · intro L2 h2
    cases L <;> cases L2 <;> simp_all [LockKey.latch, LockKey.mask, CAPS, NUM, SLOCK]

theorem toggle_testBit (cfg : Config) (L : LockKey) (s : KbdState) (hk : cfg.kraw = 0)
    (hms : s.ModeState < 2 ^ 16) (i : Nat) :
    (toggle cfg L s).ModeState.testBit i =
      (if L.latch s = 0 then (s.ModeState.testBit i || L.mask.testBit i)
       else (s.ModeState.testBit i && !L.mask.testBit i)) := by
  have hor : s.ModeState ||| L.mask < 2 ^ 16 :=
    Nat.or_lt_two_pow hms (by cases L <;> decide)
  rw [(toggle_fields cfg L s hk hms).1]
  split_ifs
  · rw [Nat.testBit_or]
  · rw [testBit_clear _ _ _ hor, Nat.testBit_or]
    cases s.ModeState.testBit i <;> cases L.mask.testBit i <;> rfl

theorem toggle_lt (cfg : Config) (L : LockKey) (s : KbdState) (hk : cfg.kraw = 0)
    (hms : s.ModeState < 2 ^ 16) : (toggle cfg L s).ModeState < 2 ^ 16 := by
  have hor : s.ModeState ||| L.mask < 2 ^ 16 :=
    Nat.or_lt_two_pow hms (by cases L <;> decide)
  rw [(toggle_fields cfg L s hk hms).1]
  split_ifs
  · exact hor
  · exact clear_lt _ _ hor

theorem lnot_eq_zero (x : Nat) : lnot x = 0 ↔ x ≠ 0 := by
  unfold lnot; split_ifs <;> simp [*]

theorem lnot_lnot (x : Nat) (h : x ≤ 1) : lnot (lnot x) = x := by
  rcases (by omega : x = 0 ∨ x = 1) with h | h <;> subst h <;> rfl

theorem bitOn_caps (s : KbdState) :
    LockKey.CapsLock.bitOn s ↔ s.ModeState.testBit 4 = true := by
  have := and_two_pow_eq_zero_iff s.ModeState 4
  simp only [LockKey.bitOn, LockKey.mask, CAPS, ne_eq]
  rw [show (0x10 : Nat) = 2 ^ 4 by norm_num, this]
  simp

theorem bitOn_num (s : KbdState) :
    LockKey.NumLock.bitOn s ↔ s.ModeState.testBit 5 = true := by
  have := and_two_pow_eq_zero_iff s.ModeState 5
  simp only [LockKey.bitOn, LockKey.mask, NUM, ne_eq]
  rw [show (0x20 : Nat) = 2 ^ 5 by norm_num, this]
  simp

/-- C3 (as amended): from any 16-bit `ModeState`, one toggle (press then release)
of a lock key inverts its latch and a second toggle restores it; no other latch
and no bit of `ModeState` outside the mask of the key changes.  For CapsLock and
NumLock not held (bit set exactly when the latch is on), the first toggle also
inverts the bit of the key and the second restores it.  ScrollLock has the empty
mask `SLOCK = 0x00`, so its toggles change no bit of `ModeState` at all. -/
theorem lock_toggle_twice (cfg : Config) (L : LockKey) (s : KbdState) (hk : cfg.kraw = 0)
    (hms : s.ModeState < 2 ^ 16) :
    (L.latchOn (toggle cfg L s) ↔ ¬ L.latchOn s) ∧
    (L.latchOn (toggle cfg L (toggle cfg L s)) ↔ L.latchOn s) ∧
    (L.latch s ≤ 1 → L.latch (toggle cfg L (toggle cfg L s)) = L.latch s) ∧
    (∀ i, L.mask.testBit i = false →
      (toggle cfg L s).ModeState.testBit i = s.ModeState.testBit i ∧
      (toggle cfg L (toggle cfg L s)).ModeState.testBit i = s.ModeState.testBit i) ∧
    (∀ L2, L2 ≠ L →
      L2.latch (toggle cfg L s) = L2.latch s ∧
      L2.latch (toggle cfg L (toggle cfg L s)) = L2.latch s) ∧
    (L ≠ LockKey.ScrollLock → (L.bitOn s ↔ L.latchOn s) →
      (L.bitOn (toggle cfg L s) ↔ ¬ L.bitOn s) ∧
      (L.bitOn (toggle cfg L (toggle cfg L s)) ↔ L.bitOn s)) := by
  have hms1 := toggle_lt cfg L s hk hms
  obtain ⟨-, a2, a3⟩ := toggle_fields cfg L s hk hms
  obtain ⟨-, b2, b3⟩ := toggle_fields cfg L (toggle cfg L s) hk hms1
  have t1 := toggle_testBit cfg L s hk hms
  have t2 := toggle_testBit cfg L (toggle cfg L s) hk hms1
  rw [a2] at b2 t2
  refine ⟨?_, ?_, ?_, ?_, ?_, ?_⟩
  · simp only [LockKey.latchOn, a2, lnot_ne_zero]; simp
  · simp only [LockKey.latchOn, b2, lnot_ne_zero, lnot_eq_zero]
  · intro h
    rw [b2, lnot_lnot _ h]
  · intro i hi
    rw [t2, t1, hi]
    refine ⟨?_, ?_⟩ <;> split_ifs <;> simp
  · intro L2 h2
    rw [b3 L2 h2, a3 L2 h2]
    exact ⟨rfl, rfl⟩
  · intro hL hfree
    simp only [LockKey.latchOn] at hfree
    cases L
    · rw [bitOn_caps] at hfree ⊢
      rw [bitOn_caps, bitOn_caps, t2, t1]
      have hm : LockKey.CapsLock.mask.testBit 4 = true := by decide
      rw [hm]
      by_cases hx : LockKey.CapsLock.latch s = 0
      · have h1 : lnot 0 = 1 := rfl
        simp [hx, h1] at hfree ⊢
        exact hfree
      · have : lnot (LockKey.CapsLock.latch s) = 0 := (lnot_eq_zero _).2 hx
        simp [hx, this] at hfree ⊢
        exact hfree
    · rw [bitOn_num] at hfree ⊢
      rw [bitOn_num, bitOn_num, t2, t1]
      have hm : LockKey.NumLock.mask.testBit 5 = true := by decide
      rw [hm]
      by_cases hx : LockKey.NumLock.latch s = 0
      · have h1 : lnot 0 = 1 := rfl
        simp [hx, h1] at hfree ⊢
        exact hfree
      · have : lnot (LockKey.NumLock.latch s) = 0 := (lnot_eq_zero _).2 hx
        simp [hx, this] at hfree ⊢
        exact hfree
    · exact absurd rfl hL

/-- Witness of C3: CapsLock toggled twice from the boot state. -/
theorem lock_toggle_twice_witness :
    LockKey.CapsLock.latch
      (toggle Config.sample LockKey.CapsLock
        (toggle Config.sample LockKey.CapsLock KbdState.init)) = 0 ∧
    (LockKey.CapsLock.bitOn (toggle Config.sample LockKey.CapsLock KbdState.init) ↔
      ¬ LockKey.CapsLock.bitOn KbdState.init) :=
  have h := lock_toggle_twice Config.sample LockKey.CapsLock KbdState.init rfl (by decide)
  ⟨h.2.2.1 (by decide), (h.2.2.2.2.2 (by decide) (by
    unfold LockKey.bitOn LockKey.latchOn; decide)).1⟩

/-- Counterexample to C3 as stated: at boot ScrollLock is not held (its bit is
clear and its latch is off), yet after press and release of ScrollLock the latch
is on while the ScrollLock bit of `ModeState` has not been inverted: `ModeState`
is unchanged. -/
theorem scroll_lock_bit_not_inverted :
    (LockKey.ScrollLock.bitOn KbdState.init ↔ LockKey.ScrollLock.latchOn KbdState.init) ∧
    LockKey.ScrollLock.latchOn (toggle Config.sample LockKey.ScrollLock KbdState.init) ∧
    ¬ (LockKey.ScrollLock.bitOn (toggle Config.sample LockKey.ScrollLock KbdState.init) ↔
        ¬ LockKey.ScrollLock.bitOn KbdState.init) ∧
    (toggle Config.sample LockKey.ScrollLock KbdState.init).ModeState = 0 := by
  unfold LockKey.bitOn LockKey.latchOn
  decide

/-! ## Simple keys -/

theorem and_low (a m k : Nat) (hm : m < 2 ^ k) : a &&& m = (a % 2 ^ k) &&& m := by
  apply Nat.eq_of_testBit_eq
  intro i
  rw [Nat.testBit_and, Nat.testBit_and, Nat.testBit_mod_two_pow]
  by_cases hi : i < k
  · simp [hi]
  · have : m.testBit i = false :=
      Nat.testBit_lt_two_pow (lt_of_lt_of_le hm (Nat.pow_le_pow_right (by decide) (by omega)))
    simp [this]

theorem low7 (X : Nat) (h : X < 0x80) : X &&& 0x7F = X ∧ X &&& 0x80 = 0 ∧ X ≠ 0xE0 := by
  revert X; decide

theorem keyboard_irq_simple (cfg : Config) (s : KbdState) (X : Nat) (hk : cfg.kraw = 0)
    (hX : simple_press X) :
    keyboard_irq cfg s X = simple_key cfg { s with E0Prefix := 0 } X := by
  obtain ⟨h1, h2, h3⟩ := low7 X hX.1
  unfold keyboard_irq
  simp only [h1, h2, hX.2]
  simp [hk, h3]

theorem shift_test (ms : Nat) : ms &&& (RSHIFT ||| LSHIFT) ≠ 0 ↔ shift_held ms := by
  unfold shift_held
  rw [and_low ms (RSHIFT ||| LSHIFT) 2 (by decide), and_low ms LSHIFT 2 (by decide),
    and_low ms RSHIFT 2 (by decide)]
  have : ms % 2 ^ 2 < 4 := Nat.mod_lt _ (by decide)
  revert this
  generalize ms % 2 ^ 2 = r
  revert r
  decide

theorem step2_caps_iff (ms : Nat) :
    step2 ms = 2 ↔ ms &&& CAPS ≠ 0 ∧ row_index ms ∈ [8, 9, 11, 13] := by
  unfold step2 row_index
  rw [and_low ms (CAPS ||| ALT ||| CTRL ||| RSHIFT) 5 (by decide), and_low ms LSHIFT 5 (by decide),
    and_low ms CAPS 5 (by decide)]
  have : ms % 2 ^ 5 < 32 := Nat.mod_lt _ (by decide)
  revert this
  generalize ms % 2 ^ 5 = r
  revert r
  decide

theorem and_of_low7 (ms v m : Nat) (h : ms &&& 0x7F = v) (hm : m < 2 ^ 7) :
    ms &&& m = v &&& m := by
  have e : (0x7F : Nat) = 2 ^ 7 - 1 := by norm_num
  rw [and_low ms m 7 hm, ← Nat.and_pow_two_sub_one_eq_mod, ← e, h]

theorem simple_key_eq (cfg : Config) (t : KbdState) (X : Nat)
    (hdel : ¬ (X = SCAN_DEL ∧ t.ModeState &&& (CTRL ||| ALT) = (CTRL ||| ALT))) :
    simple_key cfg t X = step6 cfg t (scan_tabs cfg (select_mode cfg t.ModeState X) X) := by
  simp only [simple_key, hdel, if_false]

theorem step6_plain (cfg : Config) (t : KbdState) (key : Nat)
    (h1 : t.ModeState &&& (CTRL ||| ALT) ≠ ALT) (h2 : t.ModeState &&& (CTRL ||| ALT) ≠ CTRL) :
    step6 cfg t key = step7 cfg t (if key = 0 then 0x40 else key) := by
  simp only [step6, h1, h2, false_and, if_false]

theorem step7_plain (cfg : Config) (t : KbdState) (key : Nat) (h : (ansi_code key).1 = 0) :
    step7 cfg t key = Console_conin t key := by
  unfold step7
  split_ifs <;> simp_all

/-- C4: the row class is Caps after step 2 exactly when the CapsLock bit is set
and the index into `state_code` is 8, 9, 11 or 13; then step 3 leaves, when the
Caps cell of the scancode is zero, Shift if a shift is held and Normal if not,
and when the cell is not zero, Normal if a shift is held and Caps if not.  With
only CapsLock active, a simple-key press whose cells are Normal `a`, Shift `A`
and Caps 0 emits the single byte `a`. -/
theorem caps_row (cfg : Config) (s : KbdState) (X : Nat) :
    (step2 s.ModeState = 2 ↔
      s.ModeState &&& CAPS ≠ 0 ∧ row_index s.ModeState ∈ [8, 9, 11, 13]) ∧
    (step2 s.ModeState = 2 →
      step3 cfg s.ModeState X (step2 s.ModeState) =
        if scan_tabs cfg 2 X = 0 then (if shift_held s.ModeState then 1 else 0)
        else (if shift_held s.ModeState then 0 else 2)) ∧
    (cfg.kraw = 0 → simple_press X → s.ModeState &&& 0x7F = CAPS →
      scan_tabs cfg 0 X = 0x61 → scan_tabs cfg 1 X = 0x41 → scan_tabs cfg 2 X = 0 →
      (keyboard_irq cfg s X).console = s.console ++ [ConEvent.conin 0x61]) := by
  refine ⟨step2_caps_iff _, ?_, ?_⟩
  · intro h
    rw [h]
    unfold step3
    simp only [shift_test, if_true]
  · intro hk hX hms hn _ hc
    rw [keyboard_irq_simple cfg s X hk hX]
    generalize ht : ({ s with E0Prefix := 0 } : KbdState) = t
    have hms : t.ModeState &&& 0x7F = CAPS := by rw [← ht]; exact hms
    have hcon : t.console = s.console := by rw [← ht]
    have m1 : t.ModeState &&& (CTRL ||| ALT) = 0 := by
      rw [and_of_low7 _ _ _ hms (by decide)]; decide
    have m2 : step2 t.ModeState = 2 := by
      unfold step2 row_index
      rw [and_of_low7 _ _ (CAPS ||| ALT ||| CTRL ||| RSHIFT) hms (by decide),
        and_of_low7 _ _ LSHIFT hms (by decide)]
      decide
    have m3 : t.ModeState &&& (RSHIFT ||| LSHIFT) = 0 := by
      rw [and_of_low7 _ _ _ hms (by decide)]; decide
    have m4 : t.ModeState &&& ALT_GR = 0 := by
      rw [and_of_low7 _ _ _ hms (by decide)]; decide
    have m5 : t.ModeState &&& NUM = 0 := by
      rw [and_of_low7 _ _ _ hms (by decide)]; decide
    have hsel : select_mode cfg t.ModeState X = 0 := by
      unfold select_mode
      rw [m2]
      simp [step3, hc, m3, step4_altgr, m4, step4_keypad, m5]
    rw [simple_key_eq cfg t X (by rw [m1]; simp [CTRL, ALT]), hsel, hn,
      step6_plain cfg t _ (by rw [m1]; decide) (by rw [m1]; decide),
      step7_plain cfg t _ (by decide)]
    simp [Console_conin, hcon]

/-- Witness of C4: the key at 0x1E of the sample keymap under CapsLock alone. -/
theorem caps_row_witness :
    (keyboard_irq Config.sample { KbdState.init with ModeState := CAPS, capslock := 1 }
      0x1E).console = [] ++ [ConEvent.conin 0x61] :=
  (caps_row Config.sample { KbdState.init with ModeState := CAPS, capslock := 1 } 0x1E).2.2
    rfl ⟨by decide, by decide⟩ rfl rfl rfl rfl

theorem ctrl_alt_test (ms : Nat) :
    (ms &&& (CTRL ||| ALT) = CTRL ↔ ms &&& CTRL ≠ 0 ∧ ms &&& ALT = 0) ∧
    (ms &&& (CTRL ||| ALT) = ALT ↔ ms &&& ALT ≠ 0 ∧ ms &&& CTRL = 0) ∧
    (ms &&& (CTRL ||| ALT) = (CTRL ||| ALT) ↔ ms &&& CTRL ≠ 0 ∧ ms &&& ALT ≠ 0) ∧
    (ms &&& (CTRL ||| ALT) = 0 ↔ ms &&& CTRL = 0 ∧ ms &&& ALT = 0) := by
  rw [and_low ms (CTRL ||| ALT) 4 (by decide), and_low ms CTRL 4 (by decide),
    and_low ms ALT 4 (by decide)]
  have : ms % 2 ^ 4 < 16 := Nat.mod_lt _ (by decide)
  revert this
  generalize ms % 2 ^ 4 = r
  revert r
  decide

theorem step6_ctrl (cfg : Config) (t : KbdState) (key : Nat)
    (h : t.ModeState &&& (CTRL ||| ALT) = CTRL) :
    step6 cfg t key = step7 cfg t ((if key = 0 then 0x40 else key) &&& 0x1F) := by
  have h1 : CTRL ≠ ALT := by decide
  simp only [step6, h, h1, false_and, if_false, if_true]

theorem step6_alt (cfg : Config) (t : KbdState) (key : Nat)
    (h : t.ModeState &&& (CTRL ||| ALT) = ALT) :
    step6 cfg t key =
      if 0x31 ≤ key ∧ key ≤ 0x33 then Console_set_vc t (key - 0x31)
      else step7 cfg t (key ||| 0x80) := by
  have h1 : ALT ≠ CTRL := by decide
  have h2 : key ||| 0x80 ≠ 0 := by
    intro h0
    have h7 := congrArg (fun x => x.testBit 7) h0
    simp only [Nat.testBit_or, Nat.zero_testBit] at h7
    have h8 : Nat.testBit 0x80 7 = true := by decide
    rw [h8] at h7
    simp at h7
  simp only [step6, h, h1, true_and, if_false, if_true, h2]

set_option maxRecDepth 100000 in
theorem ansi_code_table :
    ∀ k < 256, escape_table.lookup k =
      (if (ansi_code k).1 ≠ 0 then
        some ([(ansi_code k).1] ++ (if (ansi_code k).2 ≠ 0 then [(ansi_code k).2] else []))
       else none) := by
  decide

theorem ansi_code_lt (k : Nat) : (ansi_code k).1 < 256 ∧ (ansi_code k).2 < 256 := by
  unfold ansi_code
  split_ifs <;> decide

theorem step7_console (cfg : Config) (t : KbdState) (k : Nat) (hk : k < 256) :
    (step7 cfg t k).console = t.console ++ (escape_bytes cfg.emul_ansi k).map ConEvent.conin := by
  have hmod := Nat.mod_eq_of_lt hk
  have htab := ansi_code_table k hk
  have h1 := Nat.mod_eq_of_lt (ansi_code_lt k).1
  have h2 := Nat.mod_eq_of_lt (ansi_code_lt k).2
  unfold step7 escape_bytes
  rw [htab]
  by_cases ha : cfg.emul_ansi = true
  · by_cases hc : (ansi_code k).1 = 0
    · simp [ha, hc, Console_conin, hmod]
    · by_cases hm : (ansi_code k).2 = 0
      · simp [ha, hc, hm, Console_conin, h1, ESC]
      · simp [ha, hc, hm, Console_conin, h1, h2, ESC]
  · simp [ha, Console_conin, hmod]

theorem ansi_code_small (k : Nat) (h : k < 0o261) : ansi_code k = (0, 0) := by
  unfold ansi_code
  have h1 : k < 177 := h
  split_ifs <;> first | omega | rfl

theorem scan_tabs_lt (cfg : Config) (mode code : Nat) : scan_tabs cfg mode code < 256 := by
  unfold scan_tabs
  split <;> first | exact Nat.mod_lt _ (by decide) | decide

theorem escape_bytes_small (enabled : Bool) (k : Nat) (h : k < 0o261) :
    escape_bytes enabled k = [k] := by
  have hk : k < 256 := lt_trans h (by decide)
  unfold escape_bytes
  rw [ansi_code_table k hk, ansi_code_small k h]
  simp

theorem simple_press_ctrl (cfg : Config) (s : KbdState) (X : Nat) (hk : cfg.kraw = 0)
    (hX : simple_press X) (hctrl : s.ModeState &&& CTRL ≠ 0) (halt : s.ModeState &&& ALT = 0) :
    (keyboard_irq cfg s X).console =
      s.console ++
        [ConEvent.conin
          ((if scan_tabs cfg (select_mode cfg s.ModeState X) X ≠ 0
            then scan_tabs cfg (select_mode cfg s.ModeState X) X else 0x40) &&& 0x1F)] := by
  have hc : s.ModeState &&& (CTRL ||| ALT) = CTRL := (ctrl_alt_test _).1.2 ⟨hctrl, halt⟩
  rw [keyboard_irq_simple cfg s X hk hX]
  generalize ht : ({ s with E0Prefix := 0 } : KbdState) = t
  have hms : t.ModeState = s.ModeState := by rw [← ht]
  have hcon : t.console = s.console := by rw [← ht]
  rw [← hms] at hc ⊢
  rw [simple_key_eq cfg t X (by rw [hc]; simp [CTRL, ALT]), step6_ctrl cfg t _ hc]
  generalize scan_tabs cfg (select_mode cfg t.ModeState X) X = v
  have hlt : (if v = 0 then 0x40 else v) &&& 0x1F < 32 :=
    lt_of_le_of_lt Nat.and_le_right (by decide)
  rw [step7_console cfg t _ (lt_trans hlt (by decide)),
    escape_bytes_small _ _ (lt_trans hlt (by decide)), hcon]
  by_cases hv : v = 0 <;> simp [hv]

theorem simple_press_alt (cfg : Config) (s : KbdState) (X : Nat) (hk : cfg.kraw = 0)
    (hX : simple_press X) (halt : s.ModeState &&& ALT ≠ 0) (hctrl : s.ModeState &&& CTRL = 0) :
    keyboard_irq cfg s X =
      if 0x31 ≤ scan_tabs cfg (select_mode cfg s.ModeState X) X ∧
          scan_tabs cfg (select_mode cfg s.ModeState X) X ≤ 0x33 then
        Console_set_vc { s with E0Prefix := 0 }
          (scan_tabs cfg (select_mode cfg s.ModeState X) X - 0x31)
      else
        step7 cfg { s with E0Prefix := 0 }
          (scan_tabs cfg (select_mode cfg s.ModeState X) X ||| 0x80) := by
  have hc : s.ModeState &&& (CTRL ||| ALT) = ALT := (ctrl_alt_test _).2.1.2 ⟨halt, hctrl⟩
  rw [keyboard_irq_simple cfg s X hk hX,
    simple_key_eq cfg _ X (by rw [show ({ s with E0Prefix := 0 } : KbdState).ModeState
      = s.ModeState from rfl, hc]; simp [CTRL, ALT]),
    step6_alt cfg { s with E0Prefix := 0 } _ hc]

theorem simple_press_plain (cfg : Config) (s : KbdState) (X : Nat) (hk : cfg.kraw = 0)
    (hX : simple_press X)
    (hdel : ¬ (X = SCAN_DEL ∧ s.ModeState &&& (CTRL ||| ALT) = (CTRL ||| ALT)))
    (h1 : s.ModeState &&& (CTRL ||| ALT) ≠ ALT) (h2 : s.ModeState &&& (CTRL ||| ALT) ≠ CTRL) :
    (keyboard_irq cfg s X).console =
      s.console ++
        (escape_bytes cfg.emul_ansi
          (if scan_tabs cfg (select_mode cfg s.ModeState X) X = 0 then 0x40
           else scan_tabs cfg (select_mode cfg s.ModeState X) X)).map ConEvent.conin := by
  rw [keyboard_irq_simple cfg s X hk hX, simple_key_eq cfg { s with E0Prefix := 0 } X hdel,
    step6_plain cfg { s with E0Prefix := 0 } _ h1 h2,
    show ({ s with E0Prefix := 0 } : KbdState).ModeState = s.ModeState from rfl,
    step7_console cfg _ _ (by
      split_ifs
      · decide
      · exact scan_tabs_lt _ _ _)]

/-- C5: a simple-key press with the Ctrl bit set and the Alt bit clear emits
exactly one byte, the looked-up cell (or `@` when the cell is zero) masked with
0x1F, whether or not ANSI emulation is compiled in; for the cell `A` (0x41) the
byte is 0x01.  With Alt clear the Ctrl+Alt+Del case cannot arise. -/
theorem ctrl_masking (cfg : Config) (s : KbdState) (X : Nat) (hk : cfg.kraw = 0)
    (hX : simple_press X) (hctrl : s.ModeState &&& CTRL ≠ 0) (halt : s.ModeState &&& ALT = 0) :
    (keyboard_irq cfg s X).console =
      s.console ++
        [ConEvent.conin
          ((if scan_tabs cfg (select_mode cfg s.ModeState X) X ≠ 0
            then scan_tabs cfg (select_mode cfg s.ModeState X) X else 0x40) &&& 0x1F)] ∧
    (scan_tabs cfg (select_mode cfg s.ModeState X) X = 0x41 →
      (keyboard_irq cfg s X).console = s.console ++ [ConEvent.conin 0x01]) := by
  have main := simple_press_ctrl cfg s X hk hX hctrl halt
  refine ⟨main, fun hv => ?_⟩
  rw [main, hv]
  rfl

/-- C6: a simple-key press with the Alt bit set and the Ctrl bit clear, whose
looked-up cell is `v`: if `v` is one of `1`, `2`, `3` the console `v - '1'` is
requested and no byte is emitted; otherwise the handler continues as step 7 on
the byte `v | 0x80`.  For `v = 'a'` the output is the single byte 0xE1. -/
theorem alt_fixup (cfg : Config) (s : KbdState) (X : Nat) (hk : cfg.kraw = 0)
    (hX : simple_press X) (halt : s.ModeState &&& ALT ≠ 0) (hctrl : s.ModeState &&& CTRL = 0) :
    (0x31 ≤ scan_tabs cfg (select_mode cfg s.ModeState X) X ∧
      scan_tabs cfg (select_mode cfg s.ModeState X) X ≤ 0x33 →
      (keyboard_irq cfg s X).console =
        s.console ++
          [ConEvent.set_vc (scan_tabs cfg (select_mode cfg s.ModeState X) X - 0x31)]) ∧
    (¬ (0x31 ≤ scan_tabs cfg (select_mode cfg s.ModeState X) X ∧
        scan_tabs cfg (select_mode cfg s.ModeState X) X ≤ 0x33) →
      keyboard_irq cfg s X =
        step7 cfg { s with E0Prefix := 0 }
          (scan_tabs cfg (select_mode cfg s.ModeState X) X ||| 0x80)) ∧
    (scan_tabs cfg (select_mode cfg s.ModeState X) X = 0x61 →
      (keyboard_irq cfg s X).console = s.console ++ [ConEvent.conin 0xE1]) := by
  have main := simple_press_alt cfg s X hk hX halt hctrl
  refine ⟨fun h => ?_, fun h => ?_, fun h => ?_⟩
  · rw [main, if_pos h]
    rfl
  · rw [main, if_neg h]
  · rw [main, h, if_neg (by decide), step7_console cfg _ _ (by decide)]
    have : escape_bytes cfg.emul_ansi (0x61 ||| 0x80) = [0xE1] := by
      cases cfg.emul_ansi <;> decide
    rw [this]
    rfl

/-- C7: step 7 on any key byte `k` emits the bytes the escape table specifies:
with ANSI emulation, ESC `[` and the final character (and `~` for Insert, PageUp
and PageDown) when `k` is one of the nine table entries and the byte `k` itself
otherwise; without it, the byte `k` itself.  A simple-key press without Ctrl and
Alt whose cell is 0270 (Up) emits ESC `[` `A` with emulation and 0270 without. -/
theorem escape_translation (cfg : Config) (s : KbdState) (X k : Nat) (hk : k < 256) :
    (step7 cfg s k).console =
      s.console ++ (escape_bytes cfg.emul_ansi k).map ConEvent.conin ∧
    (cfg.kraw = 0 → simple_press X → s.ModeState &&& CTRL = 0 → s.ModeState &&& ALT = 0 →
      scan_tabs cfg (select_mode cfg s.ModeState X) X = 0o270 →
      (keyboard_irq cfg s X).console =
        s.console ++
          (if cfg.emul_ansi = true then
            [ConEvent.conin 0x1B, ConEvent.conin 0x5B, ConEvent.conin 0x41]
           else [ConEvent.conin 0o270])) := by
  refine ⟨step7_console cfg s k hk, fun hkr hX hctrl halt hv => ?_⟩
  have hc : s.ModeState &&& (CTRL ||| ALT) = 0 := (ctrl_alt_test _).2.2.2.2 ⟨hctrl, halt⟩
  rw [simple_press_plain cfg s X hkr hX (by rw [hc]; simp [CTRL, ALT]) (by rw [hc]; decide)
    (by rw [hc]; decide), hv]
  cases cfg.emul_ansi <;> rfl

/-- Witness of C5: Ctrl held and the key `a` of the sample keymap. -/
theorem ctrl_masking_witness :
    (keyboard_irq Config.sample { KbdState.init with ModeState := CTRL } 0x1E).console =
      [ConEvent.conin 0x01] :=
  (ctrl_masking Config.sample { KbdState.init with ModeState := CTRL } 0x1E rfl
    ⟨by decide, by decide⟩ (by decide) (by decide)).1

/-- Witness of C6: Alt held and the key `a` of the sample keymap. -/
theorem alt_fixup_witness :
    (keyboard_irq Config.sample { KbdState.init with ModeState := ALT } 0x1E).console =
      [] ++ [ConEvent.conin 0xE1] :=
  (alt_fixup Config.sample { KbdState.init with ModeState := ALT } 0x1E rfl
    ⟨by decide, by decide⟩ (by decide) (by decide)).2.2 rfl

/-- Witness of C7: the Up key of the sample keymap, and step 7 on its byte. -/
theorem escape_translation_witness :
    (step7 Config.sample KbdState.init 0o270).console =
      [ConEvent.conin 0x1B, ConEvent.conin 0x5B, ConEvent.conin 0x41] ∧
    (keyboard_irq Config.sample KbdState.init 0x48).console =
      [ConEvent.conin 0x1B, ConEvent.conin 0x5B, ConEvent.conin 0x41] :=
  have h := escape_translation Config.sample KbdState.init 0x48 0o270 (by decide)
  ⟨h.1, h.2 rfl ⟨by decide, by decide⟩ (by decide) (by decide) rfl⟩

/-- C10 (as amended): a simple-key press whose selected table cell is zero emits
exactly one byte: `@` (0x40) when Ctrl and Alt are both clear, or both set and
the key is not Delete; 0x80 when Alt is set and Ctrl clear (the meta bit is set
before the zero test); 0x00 when Ctrl is set and Alt clear (`@` masked with
0x1F). -/
theorem undefined_cell (cfg : Config) (s : KbdState) (X : Nat) (hk : cfg.kraw = 0)
    (hX : simple_press X) (hz : scan_tabs cfg (select_mode cfg s.ModeState X) X = 0) :
    (s.ModeState &&& CTRL = 0 → s.ModeState &&& ALT = 0 →
      (keyboard_irq cfg s X).console = s.console ++ [ConEvent.conin 0x40]) ∧
    (s.ModeState &&& CTRL ≠ 0 → s.ModeState &&& ALT ≠ 0 → X ≠ SCAN_DEL →
      (keyboard_irq cfg s X).console = s.console ++ [ConEvent.conin 0x40]) ∧
    (s.ModeState &&& ALT ≠ 0 → s.ModeState &&& CTRL = 0 →
      (keyboard_irq cfg s X).console = s.console ++ [ConEvent.conin 0x80]) ∧
    (s.ModeState &&& CTRL ≠ 0 → s.ModeState &&& ALT = 0 →
      (keyboard_irq cfg s X).console = s.console ++ [ConEvent.conin 0x00]) := by
  have hat : escape_bytes cfg.emul_ansi 0x40 = [0x40] := escape_bytes_small _ _ (by decide)
  have h80 : escape_bytes cfg.emul_ansi 0x80 = [0x80] := escape_bytes_small _ _ (by decide)
  refine ⟨fun hc ha => ?_, fun hc ha hd => ?_, fun ha hc => ?_, fun hc ha => ?_⟩
  · have h0 : s.ModeState &&& (CTRL ||| ALT) = 0 := (ctrl_alt_test _).2.2.2.2 ⟨hc, ha⟩
    rw [simple_press_plain cfg s X hk hX (by rw [h0]; simp [CTRL, ALT]) (by rw [h0]; decide)
      (by rw [h0]; decide), hz]
    simp only [if_true, hat]
    rfl
  · have h0 : s.ModeState &&& (CTRL ||| ALT) = (CTRL ||| ALT) :=
      (ctrl_alt_test _).2.2.1.2 ⟨hc, ha⟩
    rw [simple_press_plain cfg s X hk hX (fun h => hd h.1) (by rw [h0]; decide)
      (by rw [h0]; decide), hz]
    simp only [if_true, hat]
    rfl
  · rw [simple_press_alt cfg s X hk hX ha hc, hz, if_neg (by decide),
      step7_console cfg _ _ (by decide)]
    rw [show (0 ||| 0x80 : Nat) = 0x80 from rfl, h80]
    rfl
  · rw [simple_press_ctrl cfg s X hk hX hc ha, hz]
    rfl

/-- Witness of C10: a key without any cell in the sample keymap, no modifier held. -/
theorem undefined_cell_witness :
    (keyboard_irq Config.sample KbdState.init 0x10).console = [] ++ [ConEvent.conin 0x40] :=
  (undefined_cell Config.sample KbdState.init 0x10 rfl ⟨by decide, by decide⟩ rfl).1
    (by decide) (by decide)

/-- Counterexample to C10 as stated: scancode 0x10 is a simple key whose cell is
zero in every table of the sample keymap; pressed after Alt it emits 0x80, and
pressed after Ctrl it emits the zero byte, not `@`. -/
theorem undefined_cell_not_always_at :
    simple_press 0x10 ∧
    scan_tabs Config.sample
      (select_mode Config.sample (keyboard_irq Config.sample KbdState.init 0x38).ModeState 0x10)
      0x10 = 0 ∧
    (keyboard_irqs Config.sample KbdState.init [0x38, 0x10]).console = [ConEvent.conin 0x80] ∧
    scan_tabs Config.sample
      (select_mode Config.sample (keyboard_irq Config.sample KbdState.init 0x1D).ModeState 0x10)
      0x10 = 0 ∧
    (keyboard_irqs Config.sample KbdState.init [0x1D, 0x10]).console = [ConEvent.conin 0x00] := by
  unfold simple_press
  decide

/-! ## The LED protocol -/

open KbCmdState

theorem send_free (status : Nat → Nat) (fuel : Nat) (s : KbdState)
    (h : s.kb_cmd_state = KS_FREE) : kbd_send_cmd status (fuel + 1) s = some s := by
  simp [kbd_send_cmd, h]

theorem send_busy1 (status : Nat → Nat) (fuel : Nat) (s : KbdState)
    (h : s.kb_cmd_state = KS_SETTING_LED_1) (hb : status s.polls &&& KB_IN_FULL ≠ 0) :
    kbd_send_cmd status (fuel + 1) s =
      some (restart_timer { s with polls := s.polls + 1 }) := by
  simp [kbd_send_cmd, h, inb_KB_STATUS, hb]

theorem send_busy2 (status : Nat → Nat) (fuel : Nat) (s : KbdState)
    (h : s.kb_cmd_state = KS_SETTING_LED_2) (hb : status s.polls &&& KB_IN_FULL ≠ 0) :
    kbd_send_cmd status (fuel + 1) s =
      some (restart_timer { s with polls := s.polls + 1 }) := by
  simp [kbd_send_cmd, h, inb_KB_STATUS, hb]

theorem send_clear2 (status : Nat → Nat) (fuel : Nat) (s : KbdState)
    (h : s.kb_cmd_state = KS_SETTING_LED_2) (hb : status s.polls &&& KB_IN_FULL = 0) :
    kbd_send_cmd status (fuel + 1) s =
      some { s with polls := s.polls + 1, kbd_out := s.kbd_out ++ [leds s],
                    kb_cmd_state := KS_FREE } := by
  have hl : leds s % 256 = leds s := by unfold leds; exact Nat.mod_mod _ _
  simp [kbd_send_cmd, h, inb_KB_STATUS, hb, outb_KEYBD, leds] at hl ⊢

theorem send_clear1 (status : Nat → Nat) (fuel : Nat) (s : KbdState)
    (h : s.kb_cmd_state = KS_SETTING_LED_1) (hb : status s.polls &&& KB_IN_FULL = 0) :
    kbd_send_cmd status (fuel + 2) s =
      kbd_send_cmd status (fuel + 1)
        { s with polls := s.polls + 1, kbd_out := s.kbd_out ++ [LED_CODE],
                 kb_cmd_state := KS_SETTING_LED_2 } := by
  rw [kbd_send_cmd]
  simp [h, inb_KB_STATUS, hb, outb_KEYBD, LED_CODE]

theorem busy_attempts_fields (k : Nat) (s : KbdState) :
    (busy_attempt^[k] s).kb_cmd_state = s.kb_cmd_state ∧
    (busy_attempt^[k] s).kbd_out = s.kbd_out ∧
    (busy_attempt^[k] s).timer_arms = s.timer_arms + k ∧
    (busy_attempt^[k] s).polls = s.polls + k ∧
    (busy_attempt^[k] s).scrlock = s.scrlock ∧
    (busy_attempt^[k] s).numlock = s.numlock ∧
    (busy_attempt^[k] s).capslock = s.capslock := by
  induction k generalizing s with
  | zero => simp
  | succ k ih =>
    rw [Function.iterate_succ_apply]
    obtain ⟨a, b, c, d, e, f, g⟩ := ih (busy_attempt s)
    rw [a, b, c, d, e, f, g]
    simp only [busy_attempt, restart_timer]
    refine ⟨trivial, trivial, ?_, ?_, trivial, trivial, trivial⟩ <;> omega

theorem calls_busy (status : Nat → Nat) (fuel : Nat) (k : Nat) :
    ∀ (s : KbdState), s.kb_cmd_state = KS_SETTING_LED_1 →
      (∀ j, j < k → status (s.polls + j) &&& KB_IN_FULL ≠ 0) →
      ∀ m, kbd_send_calls status (fuel + 1) (k + m) s =
        kbd_send_calls status (fuel + 1) m (busy_attempt^[k] s) := by
  induction k with
  | zero => intro s _ _ m; simp
  | succ k ih =>
    intro s h1 hb m
    have e : k + 1 + m = (k + m) + 1 := by omega
    have hb0 : status s.polls &&& KB_IN_FULL ≠ 0 := by simpa using hb 0 (by omega)
    rw [e, kbd_send_calls, send_busy1 status fuel s h1 hb0, Function.iterate_succ_apply]
    simp only [Option.some_bind, Option.bind_eq_bind]
    exact ih (busy_attempt s) h1 (fun j hj => by
      have := hb (j + 1) (by omega)
      simpa [busy_attempt, restart_timer, Nat.add_assoc, Nat.add_comm 1 j] using this) m

/-- C9: starting in KS_SETTING_LED_1, if the input-busy flag reads set on the
next `N` polls and clear on the two polls after them, then after each `k ≤ N` of
the first calls of `kbd_send_cmd` nothing has been written to the keyboard port,
the state is still KS_SETTING_LED_1 and the timer has been re-armed `k` times;
the call after them returns having written exactly 0xED and then
`scrlock | (numlock << 1) | (capslock << 2)`, in KS_FREE, with no further
re-arming.  The LED byte is an `unsigned char`; for latches that are 0 or 1 the
reduction modulo 256 changes nothing. -/
theorem busy_retry (status : Nat → Nat) (s : KbdState) (N fuel : Nat)
    (h1 : s.kb_cmd_state = KS_SETTING_LED_1)
    (hbusy : ∀ k, k < N → status (s.polls + k) &&& KB_IN_FULL ≠ 0)
    (hc1 : status (s.polls + N) &&& KB_IN_FULL = 0)
    (hc2 : status (s.polls + N + 1) &&& KB_IN_FULL = 0) :
    (∀ k, k ≤ N → ∃ sk, kbd_send_calls status (fuel + 2) k s = some sk ∧
      sk.kb_cmd_state = KS_SETTING_LED_1 ∧ sk.kbd_out = s.kbd_out ∧
      sk.timer_arms = s.timer_arms + k ∧ sk.polls = s.polls + k) ∧
    (∃ sf, kbd_send_calls status (fuel + 2) (N + 1) s = some sf ∧
      sf.kb_cmd_state = KS_FREE ∧
      sf.kbd_out = s.kbd_out ++
        [0xED, (s.scrlock ||| (s.numlock <<< 1) ||| (s.capslock <<< 2)) % 256] ∧
      sf.timer_arms = s.timer_arms + N ∧ sf.polls = s.polls + N + 2) ∧
    (s.scrlock ≤ 1 → s.numlock ≤ 1 → s.capslock ≤ 1 →
      (s.scrlock ||| (s.numlock <<< 1) ||| (s.capslock <<< 2)) % 256 =
        s.scrlock ||| (s.numlock <<< 1) ||| (s.capslock <<< 2)) := by
  have hf := busy_attempts_fields
  refine ⟨fun k hk => ?_, ?_, fun a b c => ?_⟩
  · refine ⟨busy_attempt^[k] s, ?_, ?_⟩
    · have := calls_busy status (fuel + 1) k s h1 (fun j hj => hbusy j (by omega)) 0
      simpa [kbd_send_calls] using this
    · obtain ⟨a, b, c, d, -⟩ := hf k s
      exact ⟨a.trans h1, b, c, d⟩
  · obtain ⟨a, b, c, d, e, f, g⟩ := hf N s
    have h1N : (busy_attempt^[N] s).kb_cmd_state = KS_SETTING_LED_1 := a.trans h1
    rw [calls_busy status (fuel + 1) N s h1 hbusy 1]
    simp only [kbd_send_calls]
    rw [send_clear1 status fuel _ h1N (by rw [d]; exact hc1),
      send_clear2 status fuel _ rfl (by simp only [d]; exact hc2)]
    refine ⟨_, rfl, rfl, ?_, ?_, ?_⟩
    · simp [b, leds, e, f, g, LED_CODE]
    · simp [c]
    · simp [d]
  · have h1 : s.scrlock = 0 ∨ s.scrlock = 1 := by omega
    have h2 : s.numlock = 0 ∨ s.numlock = 1 := by omega
    have h3 : s.capslock = 0 ∨ s.capslock = 1 := by omega
    rcases h1 with h1 | h1 <;> rcases h2 with h2 | h2 <;> rcases h3 with h3 | h3 <;>
      rw [h1, h2, h3] <;> decide

/-- Witness of C9: three busy polls, then two clear ones, with NumLock on. -/
theorem busy_retry_witness :
    ∃ sf, kbd_send_calls (fun k => if k < 3 then 2 else 0) (0 + 2) (3 + 1)
        { KbdState.init with kb_cmd_state := KS_SETTING_LED_1, numlock := 1 } = some sf ∧
      sf.kb_cmd_state = KS_FREE ∧
      sf.kbd_out = [] ++ [0xED, (0 ||| (1 <<< 1) ||| (0 <<< 2)) % 256] ∧
      sf.timer_arms = 0 + 3 ∧ sf.polls = 0 + 3 + 2 :=
  (busy_retry (fun k => if k < 3 then 2 else 0)
    { KbdState.init with kb_cmd_state := KS_SETTING_LED_1, numlock := 1 } 3 0 rfl
    (by decide) (by decide) (by decide)).2.1

theorem ledCycle_step2 (status : Nat → Nat) (fuel : Nat) (o : List Nat) (l : Nat)
    (s : KbdState) (hl : leds s = l) (h2 : s.kb_cmd_state = KS_SETTING_LED_2)
    (ho : s.kbd_out = o ++ [0xED]) :
    ∃ s2, kbd_send_cmd status (fuel + 1) s = some s2 ∧ LedCycle o l s2 := by
  by_cases hb : status s.polls &&& KB_IN_FULL = 0
  · rw [send_clear2 status fuel s h2 hb]
    refine ⟨_, rfl, ?_, Or.inr (Or.inr ⟨rfl, ?_⟩)⟩
    · exact hl
    · simp [ho, hl]
  · rw [send_busy2 status fuel s h2 hb]
    exact ⟨_, rfl, hl, Or.inr (Or.inl ⟨h2, ho⟩)⟩

theorem ledCycle_step (status : Nat → Nat) (fuel : Nat) (o : List Nat) (l : Nat)
    (s : KbdState) (h : LedCycle o l s) :
    ∃ s2, kbd_send_cmd status (fuel + 2) s = some s2 ∧ LedCycle o l s2 := by
  obtain ⟨hl, h1 | h2 | h3⟩ := h
  · by_cases hb : status s.polls &&& KB_IN_FULL = 0
    · rw [send_clear1 status fuel s h1.1 hb]
      exact ledCycle_step2 status fuel o l _ hl rfl (by simp [h1.2, LED_CODE])
    · rw [send_busy1 status (fuel + 1) s h1.1 hb]
      exact ⟨_, rfl, hl, Or.inl ⟨h1.1, h1.2⟩⟩
  · exact ledCycle_step2 status (fuel + 1) o l s hl h2.1 h2.2
  · rw [send_free status (fuel + 1) s h3.1]
    exact ⟨_, rfl, hl, Or.inr (Or.inr h3)⟩

theorem ledCycle_calls (status : Nat → Nat) (fuel : Nat) (o : List Nat) (l : Nat) (n : Nat) :
    ∀ s, LedCycle o l s →
      ∃ s2, kbd_send_calls status (fuel + 2) n s = some s2 ∧ LedCycle o l s2 := by
  induction n with
  | zero => intro s h; exact ⟨s, rfl, h⟩
  | succ n ih =>
    intro s h
    obtain ⟨s1, e1, i1⟩ := ledCycle_step status fuel o l s h
    obtain ⟨s2, e2, i2⟩ := ih s1 i1
    exact ⟨s2, by simp [kbd_send_calls, e1, e2], i2⟩

theorem lock_release_led (cfg : Config) (s : KbdState) (L : LockKey) (hk : cfg.kraw = 0) :
    (keyboard_irq cfg s (L.scancode + 0x80)).kbd_out = s.kbd_out ∧
    (keyboard_irq cfg s (L.scancode + 0x80)).kb_cmd_state =
      (if cfg.kbd_leds = true ∧ s.kb_cmd_state = KS_FREE then KS_SETTING_LED_1
       else s.kb_cmd_state) := by
  obtain ⟨r1, r2, r3⟩ := lock_mode cfg L (decide (s.E0Prefix ≠ 0)) (L.scancode + 0x80) (Or.inr rfl)
  have hrel : (L.scancode + 0x80) &&& 0x80 ≠ 0 := by cases L <;> decide
  rw [keyboard_irq_status cfg s _ hk r1 r2]
  unfold status_key
  rw [r3]
  simp only [hrel, ne_eq, not_false_eq_true, if_true]
  cases L <;> simp only [LockKey.mask, CAPS, NUM, SLOCK] <;>
    simp [set_leds, restart_timer] <;> split_ifs <;> simp_all

theorem kbd_send_cmd_returns (status : Nat → Nat) (fuel : Nat) (s : KbdState) :
    ∃ s2, kbd_send_cmd status (fuel + 2) s = some s2 := by
  have two : ∀ t : KbdState, t.kb_cmd_state = KS_SETTING_LED_2 →
      ∃ s2, kbd_send_cmd status (fuel + 1) t = some s2 := by
    intro t h2
    by_cases hb : status t.polls &&& KB_IN_FULL = 0
    · exact ⟨_, send_clear2 status fuel t h2 hb⟩
    · exact ⟨_, send_busy2 status fuel t h2 hb⟩
  cases h : s.kb_cmd_state with
  | KS_FREE => exact ⟨_, send_free status (fuel + 1) s h⟩
  | KS_SETTING_LED_1 =>
    by_cases hb : status s.polls &&& KB_IN_FULL = 0
    · rw [send_clear1 status fuel s h hb]
      exact two _ rfl
    · exact ⟨_, send_busy1 status (fuel + 1) s h hb⟩
  | KS_SETTING_LED_2 =>
    by_cases hb : status s.polls &&& KB_IN_FULL = 0
    · exact ⟨_, send_clear2 status (fuel + 1) s h hb⟩
    · exact ⟨_, send_busy2 status (fuel + 1) s h hb⟩

theorem kbd_send_calls_return (status : Nat → Nat) (fuel n : Nat) :
    ∀ s, ∃ s2, kbd_send_calls status (fuel + 2) n s = some s2 := by
  induction n with
  | zero => intro s; exact ⟨s, rfl⟩
  | succ n ih =>
    intro s
    obtain ⟨s1, e1⟩ := kbd_send_cmd_returns status fuel s
    obtain ⟨s2, e2⟩ := ih s1
    exact ⟨s2, by simp [kbd_send_calls, e1, e2]⟩

theorem set_leds_in_flight (cfg : Config) (t : KbdState) (h : t.kb_cmd_state ≠ KS_FREE) :
    set_leds cfg t = t := by
  unfold set_leds
  split_ifs <;> rfl

/-- C8: `set_leds` called while `kb_cmd_state` is not KS_FREE returns the state
as it was (no change of `kb_cmd_state` or of the timer, nothing sent).  Hence,
with LEDs present and whatever the busy flag reads: if a lock-key release flips
a latch in KS_FREE, the protocol is still in flight after `n1` calls of
`kbd_send_cmd`, a second lock-key release flips a latch, and the protocol is
back in KS_FREE after `n2` more calls, then the bytes written to the keyboard
port in all are exactly 0xED followed by one LED byte, computed from the latches
as they are after the second flip.  Every such run of calls returns. -/
theorem led_coalescing (cfg : Config) (status : Nat → Nat) (fuel : Nat) (s0 : KbdState)
    (L1 L2 : LockKey) (n1 n2 : Nat) (s2 s4 : KbdState) :
    (∀ t, t.kb_cmd_state ≠ KS_FREE → set_leds cfg t = t) ∧
    (cfg.kraw = 0 → cfg.kbd_leds = true → s0.kb_cmd_state = KS_FREE →
      kbd_send_calls status (fuel + 2) n1 (keyboard_irq cfg s0 (L1.scancode + 0x80)) = some s2 →
      s2.kb_cmd_state ≠ KS_FREE →
      kbd_send_calls status (fuel + 2) n2 (keyboard_irq cfg s2 (L2.scancode + 0x80)) = some s4 →
      s4.kb_cmd_state = KS_FREE →
      s4.kbd_out = s0.kbd_out ++ [0xED, leds (keyboard_irq cfg s2 (L2.scancode + 0x80))]) ∧
    (∀ n t, ∃ t2, kbd_send_calls status (fuel + 2) n t = some t2) := by
  refine ⟨set_leds_in_flight cfg, ?_, ?_⟩
  · intro hk hleds h0 hrun1 hfl hrun2 hdone
    obtain ⟨o1, c1⟩ := lock_release_led cfg s0 L1 hk
    rw [if_pos ⟨hleds, h0⟩] at c1
    obtain ⟨t2, e2, i2⟩ := ledCycle_calls status fuel s0.kbd_out _ n1
      (keyboard_irq cfg s0 (L1.scancode + 0x80)) ⟨rfl, Or.inl ⟨c1, o1⟩⟩
    rw [hrun1] at e2
    cases e2
    obtain ⟨o3, c3⟩ := lock_release_led cfg s2 L2 hk
    rw [if_neg (fun h => hfl h.2)] at c3
    have i3 : LedCycle s0.kbd_out (leds (keyboard_irq cfg s2 (L2.scancode + 0x80)))
        (keyboard_irq cfg s2 (L2.scancode + 0x80)) := by
      refine ⟨rfl, ?_⟩
      rw [o3, c3]
      rcases i2.2 with h | h | h
      · exact Or.inl h
      · exact Or.inr (Or.inl h)
      · exact absurd h.1 hfl
    obtain ⟨t4, e4, i4⟩ := ledCycle_calls status fuel _ _ n2 _ i3
    rw [hrun2] at e4
    cases e4
    rcases i4.2 with h | h | h
    · rw [h.1] at hdone; cases hdone
    · rw [h.1] at hdone; cases hdone
    · exact h.2
  · exact fun n t => kbd_send_calls_return status fuel n t

/-- Witness of C8: CapsLock flips at boot, one attempt finds the controller busy,
NumLock flips, and two more attempts complete the cycle: the only bytes written
are 0xED and the LED byte with both latches on. -/
theorem led_coalescing_witness :
    ((kbd_send_calls (fun k => if k < 2 then 2 else 0) (0 + 2) 2
        (keyboard_irq Config.sample
          (busy_attempt (keyboard_irq Config.sample KbdState.init (0x3A + 0x80)))
          (0x45 + 0x80))).getD KbdState.init).kbd_out = [] ++ [0xED, 6] :=
  (led_coalescing Config.sample (fun k => if k < 2 then 2 else 0) 0 KbdState.init
    LockKey.CapsLock LockKey.NumLock 1 2
    (busy_attempt (keyboard_irq Config.sample KbdState.init (0x3A + 0x80)))
    ((kbd_send_calls (fun k => if k < 2 then 2 else 0) (0 + 2) 2
        (keyboard_irq Config.sample
          (busy_attempt (keyboard_irq Config.sample KbdState.init (0x3A + 0x80)))
          (0x45 + 0x80))).getD KbdState.init)).2.1
    rfl rfl rfl rfl (by decide) rfl rfl

/-! ## Function keys, the prefix flag and Ctrl+Alt+Del -/

theorem keyboard_irq_fn (cfg : Config) (s : KbdState) (X : Nat) (hk : cfg.kraw = 0)
    (hX : X < 0x80) (hc : classify X &&& 0xC0 = 0x40) :
    keyboard_irq cfg s X = fn_key { s with E0Prefix := 0 } X (classify X) := by
  obtain ⟨h1, h2, h3⟩ := low7 X hX
  unfold keyboard_irq
  simp only [h1, h2, hc]
  simp [hk, h3]

theorem fn_classify : ∀ n, n < 13 → 1 ≤ n →
    fn_scancode n < 0x80 ∧ classify (fn_scancode n) = 0x61 + (n - 1) ∧
    classify (fn_scancode n) &&& 0xC0 = 0x40 ∧
    (fn_scancode n ≤ SCAN_F1 + 2 ↔ n ≤ 3) ∧ (n ≤ 3 → fn_scancode n - SCAN_F1 = n - 1) := by
  decide

/-- C12: for the press of the function key `Fn` (F1..F10 at 0x3B..0x44, F11 at
0x57, F12 at 0x58) in any state: if the Alt bit is set and the key is F1, F2 or
F3, the console `code - 0x3B` (that is `n - 1`) is requested and no byte is
emitted; otherwise exactly the two bytes ESC and `'a' + (n - 1)` are emitted and
no console is requested. -/
theorem function_keys (cfg : Config) (s : KbdState) (n : Nat) (hk : cfg.kraw = 0)
    (h1 : 1 ≤ n) (h12 : n ≤ 12) :
    (s.ModeState &&& ALT ≠ 0 ∧ n ≤ 3 →
      (keyboard_irq cfg s (fn_scancode n)).console =
        s.console ++ [ConEvent.set_vc (fn_scancode n - 0x3B)] ∧
      fn_scancode n - 0x3B = n - 1) ∧
    (¬ (s.ModeState &&& ALT ≠ 0 ∧ n ≤ 3) →
      (keyboard_irq cfg s (fn_scancode n)).console =
        s.console ++ [ConEvent.conin 27, ConEvent.conin (0x61 + (n - 1))]) := by
  obtain ⟨c1, c2, c3, c4, c5⟩ := fn_classify n (by omega) h1
  have hirq := keyboard_irq_fn cfg s (fn_scancode n) hk c1 c3
  have hmod : (0x61 + (n - 1)) % 256 = 0x61 + (n - 1) := Nat.mod_eq_of_lt (by omega)
  refine ⟨fun h => ?_, fun h => ?_⟩
  · refine ⟨?_, c5 h.2⟩
    rw [hirq, fn_key, if_pos ⟨h.1, c4.2 h.2⟩]
    rfl
  · rw [hirq, fn_key, if_neg (fun h2 => h ⟨h2.1, c4.1 h2.2⟩), c2]
    simp [Console_conin, ESC, hmod]

/-- Witness of C12: F2 with Alt held switches to console 1, F11 without Alt
emits ESC `k`. -/
theorem function_keys_witness :
    (keyboard_irq Config.sample { KbdState.init with ModeState := ALT } 0x3C).console =
      [] ++ [ConEvent.set_vc (0x3C - 0x3B)] ∧
    (keyboard_irq Config.sample KbdState.init 0x57).console =
      [] ++ [ConEvent.conin 27, ConEvent.conin (0x61 + (11 - 1))] :=
  ⟨((function_keys Config.sample { KbdState.init with ModeState := ALT } 2 rfl
      (by decide) (by decide)).1 (by decide)).1,
   (function_keys Config.sample KbdState.init 11 rfl (by decide) (by decide)).2 (by decide)⟩

theorem ctrl_alt_del_goes_on (cfg : Config) (s : KbdState) (hk : cfg.kraw = 0)
    (hc : s.ModeState &&& CTRL ≠ 0) (ha : s.ModeState &&& ALT ≠ 0) :
    (keyboard_irq cfg s SCAN_DEL).console =
      s.console ++ ConEvent.ctrl_alt_del ::
        (escape_bytes cfg.emul_ansi
          (if scan_tabs cfg (select_mode cfg s.ModeState SCAN_DEL) SCAN_DEL = 0 then 0x40
           else scan_tabs cfg (select_mode cfg s.ModeState SCAN_DEL) SCAN_DEL)).map
          ConEvent.conin := by
  have h0 : s.ModeState &&& (CTRL ||| ALT) = (CTRL ||| ALT) :=
    (ctrl_alt_test _).2.2.1.2 ⟨hc, ha⟩
  rw [keyboard_irq_simple cfg s SCAN_DEL hk (by decide)]
  unfold simple_key
  simp only [h0, and_self, if_true]
  rw [step6_plain cfg _ _ (by show s.ModeState &&& (CTRL ||| ALT) ≠ ALT; rw [h0]; decide)
    (by show s.ModeState &&& (CTRL ||| ALT) ≠ CTRL; rw [h0]; decide),
    step7_console cfg _ _ (by
      split_ifs
      · decide
      · exact scan_tabs_lt _ _ _)]
  simp [ctrl_alt_del]

/-- C11 (code evaluated at the failing input): after Ctrl and Alt have been
pressed, the press of Delete (0x53) calls `ctrl_alt_del()` and, the call having
returned, goes on through steps 2 to 7 and emits a byte, here `@` for the empty
cell of the sample keymap. -/
theorem ctrl_alt_del_emits_byte :
    (keyboard_irqs Config.sample KbdState.init [0x1D, 0x38, 0x53]).console =
      [ConEvent.ctrl_alt_del, ConEvent.conin 0x40] := by
  decide

@[simp] theorem set_leds_E0Prefix (cfg : Config) (s : KbdState) :
    (set_leds cfg s).E0Prefix = s.E0Prefix := by
  unfold set_leds restart_timer
  split_ifs <;> rfl

theorem status_key_E0Prefix (cfg : Config) (s : KbdState) (mode0 : Nat) (E0key : Bool)
    (keyReleased : Nat) : (status_key cfg s mode0 E0key keyReleased).E0Prefix = s.E0Prefix := by
  unfold status_key
  simp only []
  split_ifs <;> simp

theorem fn_key_E0Prefix (s : KbdState) (code mode : Nat) :
    (fn_key s code mode).E0Prefix = s.E0Prefix := by
  unfold fn_key
  split_ifs <;> rfl

theorem ext_key_E0Prefix (cfg : Config) (s : KbdState) (mode : Nat) :
    (ext_key cfg s mode).E0Prefix = s.E0Prefix := by
  unfold ext_key
  simp only []
  split_ifs <;> rfl

theorem step7_E0Prefix (cfg : Config) (s : KbdState) (key : Nat) :
    (step7 cfg s key).E0Prefix = s.E0Prefix := by
  unfold step7
  simp only []
  split_ifs <;> rfl

theorem simple_key_E0Prefix (cfg : Config) (s : KbdState) (code : Nat) :
    (simple_key cfg s code).E0Prefix = s.E0Prefix := by
  unfold simple_key step6
  simp only []
  split_ifs <;> simp [step7_E0Prefix, Console_set_vc, ctrl_alt_del]

theorem irq_flag_clear (cfg : Config) (s : KbdState) (raw : Nat) (hk : cfg.kraw = 0)
    (hraw : raw ≠ 0xE0) : (keyboard_irq cfg s raw).E0Prefix = 0 := by
  unfold keyboard_irq
  simp only [hk, hraw, ne_eq, not_true_eq_false, if_false]
  split_ifs <;>
    simp [status_key_E0Prefix, fn_key_E0Prefix, ext_key_E0Prefix, simple_key_E0Prefix]

theorem irq_byte_E0 (cfg : Config) (s : KbdState) (hk : cfg.kraw = 0) :
    keyboard_irq cfg s 0xE0 = { s with E0Prefix := 1 } := by
  unfold keyboard_irq
  simp [hk]

theorem keyboard_irqs_append (cfg : Config) (s : KbdState) (pre : List Nat) (b : Nat) :
    keyboard_irqs cfg s (pre ++ [b]) = keyboard_irq cfg (keyboard_irqs cfg s pre) b := by
  simp [keyboard_irqs, List.foldl_append]

/-- C13: with raw mode off, the byte 0xE0 only sets the stored prefix flag (no
console call, `ModeState` and the latches as they were), and any other byte
leaves the flag clear.  Hence after any non-empty byte sequence the flag, which
is what the next event reads as its extended flag, is set exactly when the last
byte was 0xE0; and once an event has followed a prefix the flag is clear again,
so one prefix marks one event at most. -/
theorem extended_flag (cfg : Config) (s : KbdState) (hk : cfg.kraw = 0) :
    keyboard_irq cfg s 0xE0 = { s with E0Prefix := 1 } ∧
    (∀ raw, raw ≠ 0xE0 → (keyboard_irq cfg s raw).E0Prefix = 0) ∧
    (∀ pre b, (keyboard_irqs cfg s (pre ++ [b])).E0Prefix ≠ 0 ↔ b = 0xE0) ∧
    (∀ pre b, b ≠ 0xE0 → (keyboard_irqs cfg s (pre ++ [0xE0, b])).E0Prefix = 0) := by
  have key : ∀ pre b, (keyboard_irqs cfg s (pre ++ [b])).E0Prefix ≠ 0 ↔ b = 0xE0 := by
    intro pre b
    rw [keyboard_irqs_append]
    by_cases hb : b = 0xE0
    · subst hb
      rw [irq_byte_E0 cfg _ hk]
      simp
    · rw [irq_flag_clear cfg _ b hk hb]
      simp [hb]
  refine ⟨irq_byte_E0 cfg s hk, fun raw h => irq_flag_clear cfg s raw hk h, key, ?_⟩
  intro pre b hb
  have e : pre ++ [0xE0, b] = (pre ++ [0xE0]) ++ [b] := by simp
  have h := (key (pre ++ [0xE0]) b).not.2 hb
  rw [e]
  exact not_not.1 h

/-- Witness of C13: the prefix sets the flag at boot, and the Up key clears it. -/
theorem extended_flag_witness :
    (keyboard_irq Config.sample KbdState.init 0xE0).E0Prefix = 1 ∧
    (keyboard_irq Config.sample { KbdState.init with E0Prefix := 1 } 0x48).E0Prefix = 0 :=
  ⟨congrArg KbdState.E0Prefix (extended_flag Config.sample KbdState.init rfl).1,
   (extended_flag Config.sample { KbdState.init with E0Prefix := 1 } rfl).2.1 0x48
     (by decide)⟩

set_option maxRecDepth 100000 in
theorem classify_facts : ∀ c, c < 0x80 →
    classify c &&& 0xC0 ≠ 0x80 ∧ (classify c = ALT → c = 0x38) ∧
    (classify c &&& 0xC0 = 0 ∨ classify c &&& 0xC0 = 0x40 ∨ classify c &&& 0xC0 = 0xC0) := by
  decide

theorem and_7F_lt (raw : Nat) : raw &&& 0x7F < 0x80 :=
  lt_of_le_of_lt Nat.and_le_right (by decide)

theorem classify_default (c : Nat) (h : 0x80 ≤ c) : classify c = SSC := by
  unfold classify TB_STATE_MAX
  have : tb_state.length = 61 := by decide
  rw [this]
  rw [if_neg (by omega)]

theorem no_extended_class (code : Nat) :
    classify code &&& 0xC0 ≠ 0x80 ∧
    (classify code &&& 0xC0 = 0 ∨ classify code &&& 0xC0 = 0x40 ∨
      classify code &&& 0xC0 = 0xC0) := by
  by_cases h : code < 0x80
  · exact ⟨(classify_facts code h).1, (classify_facts code h).2.2⟩
  · rw [classify_default code (by omega)]
    decide

theorem status_key_other (cfg : Config) (s : KbdState) (mode : Nat) (e1 e2 : Bool)
    (rel : Nat) (h : mode ≠ ALT) :
    status_key cfg s mode e1 rel = status_key cfg s mode e2 rel := by
  have a : ∀ e, altgr_mode cfg mode e = mode := by
    intro e; simp [altgr_mode, h]
  unfold status_key
  rw [a e1, a e2]

/-- C18: no scancode is classed as an extended scan code: the class bits of
every `tb_state` entry and of the default are 0x00, 0x40 or 0xC0.  So for every
raw byte whose scancode is not 0x38 (Alt), pressed or released, and every prior
state, the handler leaves the same console log, `ModeState`, latches and LED
state whatever the stored prefix flag was; only the flag itself is left out of
the comparison. -/
theorem prefix_independence (cfg : Config) (s : KbdState) (raw e1 e2 : Nat)
    (hraw : raw &&& 0x7F ≠ 0x38) :
    (∀ code, classify code &&& 0xC0 ≠ 0x80 ∧
      (classify code &&& 0xC0 = 0 ∨ classify code &&& 0xC0 = 0x40 ∨
        classify code &&& 0xC0 = 0xC0)) ∧
    ({ keyboard_irq cfg { s with E0Prefix := e1 } raw with E0Prefix := 0 } : KbdState) =
      { keyboard_irq cfg { s with E0Prefix := e2 } raw with E0Prefix := 0 } := by
  refine ⟨no_extended_class, ?_⟩
  obtain ⟨c1, c2, -⟩ := classify_facts (raw &&& 0x7F) (and_7F_lt raw)
  have hne : classify (raw &&& 0x7F) ≠ ALT := fun h => hraw (c2 h)
  unfold keyboard_irq
  by_cases hk : cfg.kraw = 0
  · by_cases hE : raw = 0xE0
    · simp [hk, hE]
    · simp only [hk, hE, ne_eq, not_true_eq_false, if_false, c1, false_and]
      rw [status_key_other cfg _ _ (decide ¬e1 = 0) (decide ¬e2 = 0) _ hne]
  · simp [hk, Console_conin]

/-- Witness of C18: the Up key (0x48) with and without the prefix flag. -/
theorem prefix_independence_witness :
    ({ keyboard_irq Config.sample { KbdState.init with E0Prefix := 0 } 0x48
        with E0Prefix := 0 } : KbdState) =
      { keyboard_irq Config.sample { KbdState.init with E0Prefix := 1 } 0x48
        with E0Prefix := 0 } :=
  (prefix_independence Config.sample KbdState.init 0x48 0 1 (by decide)).2

/-! ## Table bounds and row selection -/

/-- C16: whenever the NUM bit is set and the scancode is at least 0x47, the row
that indexes `scan_tabs` is Normal (0) if the LSHIFT bit is set and Shift (1) if
not, a value that depends on no other bit and on no table; otherwise the row is
the one steps 2 to 4 chose.  For a simple-key press this row is the one the
handler looks the key up in. -/
theorem keypad_override (cfg : Config) (s : KbdState) (X : Nat) :
    (s.ModeState &&& NUM ≠ 0 ∧ 0x47 ≤ X →
      select_mode cfg s.ModeState X = (if s.ModeState &&& LSHIFT ≠ 0 then 0 else 1)) ∧
    (¬ (s.ModeState &&& NUM ≠ 0 ∧ 0x47 ≤ X) →
      select_mode cfg s.ModeState X =
        step4_altgr s.ModeState (step3 cfg s.ModeState X (step2 s.ModeState))) ∧
    (cfg.kraw = 0 → simple_press X →
      keyboard_irq cfg s X =
        step6 cfg
          (if X = SCAN_DEL ∧ s.ModeState &&& (CTRL ||| ALT) = (CTRL ||| ALT)
            then ctrl_alt_del { s with E0Prefix := 0 } else { s with E0Prefix := 0 })
          (scan_tabs cfg (select_mode cfg s.ModeState X) X)) := by
  refine ⟨fun h => ?_, fun h => ?_, fun hk hX => ?_⟩
  · unfold select_mode step4_keypad
    rw [if_pos (by exact ⟨h.1, h.2⟩)]
  · unfold select_mode step4_keypad
    rw [if_neg (by exact h)]
  · rw [keyboard_irq_simple cfg s X hk hX]
    unfold simple_key
    simp only []
    split_ifs <;> rfl

/-- Witness of C16: keypad 8 under NumLock with every other modifier but
LeftShift set uses the Shift row. -/
theorem keypad_override_witness :
    select_mode Config.sample (NUM ||| CAPS ||| CTRL ||| ALT ||| ALT_GR ||| RSHIFT) 0x48 =
      (if (NUM ||| CAPS ||| CTRL ||| ALT ||| ALT_GR ||| RSHIFT) &&& LSHIFT ≠ 0 then 0 else 1) :=
  (keypad_override Config.sample
    { KbdState.init with ModeState := NUM ||| CAPS ||| CTRL ||| ALT ||| ALT_GR ||| RSHIFT }
    0x48).1 (by decide)

theorem row_index_lt (ms : Nat) : row_index ms < 16 := by
  unfold row_index
  rw [and_low ms (CAPS ||| ALT ||| CTRL ||| RSHIFT) 5 (by decide), and_low ms LSHIFT 5 (by decide)]
  have : ms % 2 ^ 5 < 32 := Nat.mod_lt _ (by decide)
  revert this
  generalize ms % 2 ^ 5 = r
  revert r
  decide

theorem step2_le (ms : Nat) : state_code[row_index ms]? = some (step2 ms) ∧ step2 ms ≤ 3 := by
  have h := row_index_lt ms
  unfold step2
  revert h
  generalize row_index ms = i
  revert i
  decide

theorem select_mode_le (cfg : Config) (ms X : Nat) : select_mode cfg ms X ≤ 3 := by
  have h := (step2_le ms).2
  unfold select_mode step4_keypad step4_altgr step3
  simp only []
  split_ifs <;> omega

set_option maxRecDepth 100000 in
theorem classify_read : ∀ code, code < 0x59 → 0x1C ≤ code →
    tb_state[code - 0x1C]? = some (classify code) := by
  decide

/-- C17: `tb_state` has 61 entries; it is read, at index `code - 0x1C`, exactly
when `0x1C ≤ code ≤ 0x58`, and the index is then inside the table; every code
below 0x1C or above 0x58 is classed 0xC0.  The index into the 16-entry
`state_code` is below 16, and the row that indexes `scan_tabs` is at most 3. -/
theorem classifier_bounds (cfg : Config) (ms code : Nat) :
    tb_state.length = 61 ∧
    ((0x1C ≤ code ∧ code - 0x1C ≤ TB_STATE_MAX) ↔ (0x1C ≤ code ∧ code ≤ 0x58)) ∧
    (0x1C ≤ code ∧ code ≤ 0x58 →
      code - 0x1C < tb_state.length ∧ tb_state[code - 0x1C]? = some (classify code)) ∧
    (code < 0x1C ∨ 0x58 < code → classify code = 0xC0) ∧
    row_index ms < state_code.length ∧ state_code.length = 16 ∧
    state_code[row_index ms]? = some (step2 ms) ∧
    select_mode cfg ms code ≤ 3 := by
  have hl : tb_state.length = 61 := by decide
  have hmax : TB_STATE_MAX = 60 := by decide
  refine ⟨hl, ?_, ?_, ?_, ?_, by decide, (step2_le ms).1, select_mode_le cfg ms code⟩
  · rw [hmax]; constructor <;> intro h <;> exact ⟨h.1, by omega⟩
  · intro h
    exact ⟨by rw [hl]; omega, classify_read code (by omega) h.1⟩
  · intro h
    unfold classify
    rw [hmax, if_neg (by omega)]
    rfl
  · exact row_index_lt ms

theorem alt_meta_bytes (cfg : Config) (s : KbdState) (X v : Nat) (hk : cfg.kraw = 0)
    (hX : simple_press X) (halt : s.ModeState &&& ALT ≠ 0) (hctrl : s.ModeState &&& CTRL = 0)
    (hv : scan_tabs cfg (select_mode cfg s.ModeState X) X = v) (h3 : 0x33 < v) (hlt : v < 0x80) :
    (keyboard_irq cfg s X).console =
      s.console ++ (escape_bytes cfg.emul_ansi (v ||| 0x80)).map ConEvent.conin := by
  have hb : v ||| 0x80 < 256 := Nat.or_lt_two_pow (n := 8) (lt_trans hlt (by decide)) (by decide)
  rw [simple_press_alt cfg s X hk hX halt hctrl, hv, if_neg (by omega),
    step7_console cfg _ _ hb]

/-- C20: with ANSI emulation, the Alt bit set and the Ctrl bit clear, a
simple-key press whose cell is `8` emits ESC `[` `A`, not the byte 0xB8; cells
`4`, `6`, `7` emit ESC `[` with `D`, `C`, `H`, and cells `9`, `:` emit ESC `[`
`5` `~` and ESC `[` `2` `~`: the cell with its high bit set is an entry of the
escape table. -/
theorem alt_meta_collision (cfg : Config) (s : KbdState) (X : Nat) (hk : cfg.kraw = 0)
    (hansi : cfg.emul_ansi = true) (hX : simple_press X) (halt : s.ModeState &&& ALT ≠ 0)
    (hctrl : s.ModeState &&& CTRL = 0) :
    (scan_tabs cfg (select_mode cfg s.ModeState X) X = 0x38 →
      (keyboard_irq cfg s X).console =
        s.console ++ [ConEvent.conin 0x1B, ConEvent.conin 0x5B, ConEvent.conin 0x41]) ∧
    (scan_tabs cfg (select_mode cfg s.ModeState X) X = 0x34 →
      (keyboard_irq cfg s X).console =
        s.console ++ [ConEvent.conin 0x1B, ConEvent.conin 0x5B, ConEvent.conin 0x44]) ∧
    (scan_tabs cfg (select_mode cfg s.ModeState X) X = 0x36 →
      (keyboard_irq cfg s X).console =
        s.console ++ [ConEvent.conin 0x1B, ConEvent.conin 0x5B, ConEvent.conin 0x43]) ∧
    (scan_tabs cfg (select_mode cfg s.ModeState X) X = 0x37 →
      (keyboard_irq cfg s X).console =
        s.console ++ [ConEvent.conin 0x1B, ConEvent.conin 0x5B, ConEvent.conin 0x48]) ∧
    (scan_tabs cfg (select_mode cfg s.ModeState X) X = 0x39 →
      (keyboard_irq cfg s X).console =
        s.console ++ [ConEvent.conin 0x1B, ConEvent.conin 0x5B, ConEvent.conin 0x35,
          ConEvent.conin 0x7E]) ∧
    (scan_tabs cfg (select_mode cfg s.ModeState X) X = 0x3A →
      (keyboard_irq cfg s X).console =
        s.console ++ [ConEvent.conin 0x1B, ConEvent.conin 0x5B, ConEvent.conin 0x32,
          ConEvent.conin 0x7E]) ∧
    (0x38 ||| 0x80 = 0o270 ∧ 0x34 ||| 0x80 = 0o264 ∧ 0x36 ||| 0x80 = 0o266 ∧
      0x37 ||| 0x80 = 0o267 ∧ 0x39 ||| 0x80 = 0o271 ∧ 0x3A ||| 0x80 = 0o272) := by
  refine ⟨fun h => ?_, fun h => ?_, fun h => ?_, fun h => ?_, fun h => ?_, fun h => ?_,
    by decide⟩ <;>
    rw [alt_meta_bytes cfg s X _ hk hX halt hctrl h (by decide) (by decide), hansi] <;> rfl

/-- Witness of C20: Alt and LeftShift held, the key at 0x48 of the sample keymap
(shifted cell `8`). -/
theorem alt_meta_collision_witness :
    (keyboard_irq Config.sample { KbdState.init with ModeState := ALT ||| LSHIFT } 0x48).console =
      [] ++ [ConEvent.conin 0x1B, ConEvent.conin 0x5B, ConEvent.conin 0x41] :=
  (alt_meta_collision Config.sample { KbdState.init with ModeState := ALT ||| LSHIFT } 0x48
    rfl rfl ⟨by decide, by decide⟩ (by decide) (by decide)).1 rfl

theorem restart_timer_fields (s : KbdState) :
    (restart_timer s).timer_arms = s.timer_arms + 1 ∧ (restart_timer s).timer_pending = true ∧
    (restart_timer s).polls = s.polls ∧ (restart_timer s).kbd_out = s.kbd_out ∧
    (restart_timer s).kb_cmd_state = s.kb_cmd_state :=
  ⟨rfl, rfl, rfl, rfl, rfl⟩

/-- C14: in any state and under any readings of the busy flag, one call of
`kbd_send_cmd` returns within two passes of its loop, having read the status
port at most twice, written at most two bytes to the keyboard port and re-armed
the timer at most once.  A read that shows the busy flag set is the last read
of the call, which then has re-armed the timer.  In KS_FREE the call changes
nothing. -/
theorem single_attempt (status : Nat → Nat) (fuel : Nat) (s : KbdState) :
    ∃ s2, kbd_send_cmd status (fuel + 2) s = some s2 ∧
      s.polls ≤ s2.polls ∧ s2.polls ≤ s.polls + 2 ∧
      (∃ w, s2.kbd_out = s.kbd_out ++ w ∧ w.length ≤ 2) ∧
      s.timer_arms ≤ s2.timer_arms ∧ s2.timer_arms ≤ s.timer_arms + 1 ∧
      (∀ k, s.polls ≤ k → k < s2.polls → status k &&& KB_IN_FULL ≠ 0 →
        s2.polls = k + 1 ∧ s2.timer_arms = s.timer_arms + 1 ∧ s2.timer_pending = true ∧
        s2.kbd_out.length ≤ s.kbd_out.length + 1) ∧
      (s.kb_cmd_state = KS_FREE → s2 = s) := by
  cases h : s.kb_cmd_state with
  | KS_FREE =>
    refine ⟨s, send_free status (fuel + 1) s h, le_refl _, by omega, ⟨[], by simp⟩,
      le_refl _, by omega, ?_, fun _ => rfl⟩
    intro k h1 h2; omega
  | KS_SETTING_LED_1 =>
    by_cases hb : status s.polls &&& KB_IN_FULL = 0
    · rw [send_clear1 status fuel s h hb]
      by_cases hb2 : status (s.polls + 1) &&& KB_IN_FULL = 0
      · rw [send_clear2 status fuel _ rfl hb2]
        refine ⟨_, rfl, ?_, ?_, ⟨[LED_CODE, leds s], by simp [leds], by simp⟩, ?_, ?_, ?_, by simp⟩
        · show s.polls ≤ s.polls + 1 + 1
          omega
        · simp
        · simp
        · simp
        · intro k h1 h2 hk
          simp only at h2
          have : k = s.polls ∨ k = s.polls + 1 := by omega
          rcases this with e | e <;> subst e
          · exact absurd hb hk
          · exact absurd hb2 hk
      · rw [send_busy2 status fuel _ rfl hb2]
        refine ⟨_, rfl, ?_, ?_, ⟨[LED_CODE], by simp [restart_timer], by simp⟩, ?_, ?_, ?_,
          by simp⟩
        · show s.polls ≤ s.polls + 1 + 1
          omega
        · simp [restart_timer]
        · simp [restart_timer]
        · simp [restart_timer]
        · intro k h1 h2 hk
          simp only [restart_timer] at h2
          have : k = s.polls ∨ k = s.polls + 1 := by omega
          rcases this with e | e <;> subst e
          · exact absurd hb hk
          · simp [restart_timer]
    · rw [send_busy1 status (fuel + 1) s h hb]
      refine ⟨_, rfl, ?_, ?_, ⟨[], by simp [restart_timer], by simp⟩, ?_, ?_, ?_, by simp⟩
      · simp [restart_timer]
      · simp [restart_timer]
      · simp [restart_timer]
      · simp [restart_timer]
      · intro k h1 h2 _
        simp only [restart_timer] at h2
        have : k = s.polls := by omega
        subst this
        simp [restart_timer]
  | KS_SETTING_LED_2 =>
    by_cases hb : status s.polls &&& KB_IN_FULL = 0
    · rw [send_clear2 status (fuel + 1) s h hb]
      refine ⟨_, rfl, ?_, ?_, ⟨[leds s], by simp, by simp⟩, ?_, ?_, ?_, by simp⟩
      · simp
      · simp
      · simp
      · simp
      · intro k h1 h2 hk
        simp only at h2
        have : k = s.polls := by omega
        subst this
        exact absurd hb hk
    · rw [send_busy2 status (fuel + 1) s h hb]
      refine ⟨_, rfl, ?_, ?_, ⟨[], by simp [restart_timer], by simp⟩, ?_, ?_, ?_, by simp⟩
      · simp [restart_timer]
      · simp [restart_timer]
      · simp [restart_timer]
      · simp [restart_timer]
      · intro k h1 h2 _
        simp only [restart_timer] at h2
        have : k = s.polls := by omega
        subst this
        simp [restart_timer]

/-! ## Invariants of the LED protocol and of the latches -/

theorem set_leds_live (cfg : Config) (s : KbdState) (h : LedLive s) : LedLive (set_leds cfg s) := by
  unfold LedLive at *
  unfold set_leds restart_timer
  split_ifs <;> simp_all

theorem status_key_led (cfg : Config) (s : KbdState) (mode0 : Nat) (e : Bool) (rel : Nat) :
    ((status_key cfg s mode0 e rel).kb_cmd_state = s.kb_cmd_state ∧
      (status_key cfg s mode0 e rel).timer_pending = s.timer_pending) ∨
    ((status_key cfg s mode0 e rel).kb_cmd_state = (set_leds cfg s).kb_cmd_state ∧
      (status_key cfg s mode0 e rel).timer_pending = (set_leds cfg s).timer_pending) := by
  unfold status_key
  simp only []
  split_ifs <;>
    first
    | (left; exact ⟨rfl, rfl⟩)
    | (right; simp [set_leds, restart_timer]; done)
    | (right; simp [set_leds, restart_timer]; split_ifs <;> simp)

theorem fn_key_led (s : KbdState) (code mode : Nat) :
    (fn_key s code mode).kb_cmd_state = s.kb_cmd_state ∧
    (fn_key s code mode).timer_pending = s.timer_pending := by
  unfold fn_key
  split_ifs <;> exact ⟨rfl, rfl⟩

theorem ext_key_led (cfg : Config) (s : KbdState) (mode : Nat) :
    (ext_key cfg s mode).kb_cmd_state = s.kb_cmd_state ∧
    (ext_key cfg s mode).timer_pending = s.timer_pending := by
  unfold ext_key
  simp only []
  split_ifs <;> exact ⟨rfl, rfl⟩

theorem step7_led (cfg : Config) (s : KbdState) (key : Nat) :
    (step7 cfg s key).kb_cmd_state = s.kb_cmd_state ∧
    (step7 cfg s key).timer_pending = s.timer_pending := by
  unfold step7
  simp only []
  split_ifs <;> exact ⟨rfl, rfl⟩

theorem simple_key_led (cfg : Config) (s : KbdState) (code : Nat) :
    (simple_key cfg s code).kb_cmd_state = s.kb_cmd_state ∧
    (simple_key cfg s code).timer_pending = s.timer_pending := by
  unfold simple_key step6
  simp only []
  split_ifs <;>
    first
    | exact ⟨rfl, rfl⟩
    | (rw [(step7_led _ _ _).1, (step7_led _ _ _).2]; exact ⟨rfl, rfl⟩)

theorem keyboard_irq_live (cfg : Config) (s : KbdState) (raw : Nat) (h : LedLive s) :
    LedLive (keyboard_irq cfg s raw) := by
  have hs := set_leds_live cfg s h
  unfold LedLive at *
  unfold keyboard_irq
  simp only []
  split_ifs
  · exact h
  · exact h
  · rcases status_key_led cfg { s with E0Prefix := 0 } (classify (raw &&& 0x7F))
      (decide (s.E0Prefix ≠ 0)) (raw &&& 0x80) with e | e
    · rw [e.1, e.2]; exact h
    · rw [e.1, e.2]
      have : set_leds cfg { s with E0Prefix := 0 } = { set_leds cfg s with E0Prefix := 0 } := by
        unfold set_leds restart_timer
        split_ifs <;> rfl
      rw [this]
      exact hs
  · exact h
  · rw [(fn_key_led _ _ _).1, (fn_key_led _ _ _).2]; exact h
  · rw [(ext_key_led _ _ _).1, (ext_key_led _ _ _).2]; exact h
  · rw [(simple_key_led _ _ _).1, (simple_key_led _ _ _).2]; exact h

theorem timer_fire_live (status : Nat → Nat) (fuel : Nat) (s s2 : KbdState) (h : LedLive s)
    (hf : timer_fire status (fuel + 2) s = some s2) : LedLive s2 := by
  unfold timer_fire at hf
  split_ifs at hf with hp
  have hst : s.kb_cmd_state ≠ KS_FREE := h.2 hp
  generalize ht : ({ s with timer_pending := false } : KbdState) = t at hf
  have htc : t.kb_cmd_state = s.kb_cmd_state := by rw [← ht]
  have htp : t.timer_pending = false := by rw [← ht]
  rw [← htc] at hst
  clear ht htc hp h
  unfold LedLive
  cases hc : t.kb_cmd_state with
  | KS_FREE => exact absurd hc hst
  | KS_SETTING_LED_1 =>
    by_cases hb : status t.polls &&& KB_IN_FULL = 0
    · rw [send_clear1 status fuel t hc hb] at hf
      by_cases hb2 : status (t.polls + 1) &&& KB_IN_FULL = 0
      · rw [send_clear2 status fuel _ rfl hb2] at hf
        cases hf; simp [htp]
      · rw [send_busy2 status fuel _ rfl hb2] at hf
        cases hf; simp [restart_timer]
    · rw [send_busy1 status (fuel + 1) t hc hb] at hf
      cases hf; simp [restart_timer, hc]
  | KS_SETTING_LED_2 =>
    by_cases hb : status t.polls &&& KB_IN_FULL = 0
    · rw [send_clear2 status (fuel + 1) t hc hb] at hf
      cases hf; simp [htp]
    · rw [send_busy2 status (fuel + 1) t hc hb] at hf
      cases hf; simp [restart_timer, hc]

/-- C19: in every state reached from KS_FREE with no timer pending by calls of
`set_leds`, keyboard interrupts and expiries of the pending timer, under any
readings of the busy flag, `kb_cmd_state` is not KS_FREE exactly when the retry
timer is pending; and while a cycle is in flight the expiry of that timer is a
call of `kbd_send_cmd` that returns. -/
theorem led_never_stalls (cfg : Config) (status : Nat → Nat) (fuel : Nat) (s : KbdState)
    (hr : LedReachable cfg status (fuel + 2) s) :
    (s.kb_cmd_state ≠ KS_FREE ↔ s.timer_pending = true) ∧
    (s.kb_cmd_state ≠ KS_FREE → ∃ s2, timer_fire status (fuel + 2) s = some s2) := by
  have live : LedLive s := by
    induction hr with
    | start s h1 h2 => unfold LedLive; simp [h1, h2]
    | step s s2 _ hstep ih =>
      cases hstep with
      | trigger => exact set_leds_live cfg s ih
      | irq raw => exact keyboard_irq_live cfg s raw ih
      | fire _ hf => exact timer_fire_live status fuel s s2 ih hf
  refine ⟨live, fun h => ?_⟩
  unfold timer_fire
  rw [if_pos (live.1 h)]
  exact kbd_send_cmd_returns status fuel _

/-- Witness of C19: the state after the first `set_leds` at boot. -/
theorem led_never_stalls_witness :
    ((set_leds Config.sample KbdState.init).kb_cmd_state ≠ KS_FREE ↔
      (set_leds Config.sample KbdState.init).timer_pending = true) :=
  (led_never_stalls Config.sample (fun _ => 0) 0 (set_leds Config.sample KbdState.init)
    (LedReachable.step _ _ (LedReachable.start _ rfl rfl) (LedStep.trigger _))).1

theorem set_leds_fields (cfg : Config) (s : KbdState) :
    (set_leds cfg s).ModeState = s.ModeState ∧ (set_leds cfg s).capslock = s.capslock ∧
    (set_leds cfg s).numlock = s.numlock ∧ (set_leds cfg s).scrlock = s.scrlock := by
  unfold set_leds restart_timer
  split_ifs <;> exact ⟨rfl, rfl, rfl, rfl⟩

theorem step7_frame (cfg : Config) (s : KbdState) (key : Nat) :
    (step7 cfg s key).ModeState = s.ModeState ∧ (step7 cfg s key).capslock = s.capslock ∧
    (step7 cfg s key).numlock = s.numlock ∧ (step7 cfg s key).scrlock = s.scrlock := by
  unfold step7
  simp only []
  split_ifs <;> exact ⟨rfl, rfl, rfl, rfl⟩

theorem simple_key_frame (cfg : Config) (s : KbdState) (code : Nat) :
    (simple_key cfg s code).ModeState = s.ModeState ∧
    (simple_key cfg s code).capslock = s.capslock ∧
    (simple_key cfg s code).numlock = s.numlock ∧
    (simple_key cfg s code).scrlock = s.scrlock := by
  unfold simple_key step6
  simp only []
  split_ifs <;>
    first
    | exact ⟨rfl, rfl, rfl, rfl⟩
    | (rw [(step7_frame _ _ _).1, (step7_frame _ _ _).2.1, (step7_frame _ _ _).2.2.1,
        (step7_frame _ _ _).2.2.2]; exact ⟨rfl, rfl, rfl, rfl⟩)

theorem fn_key_frame (s : KbdState) (code mode : Nat) :
    (fn_key s code mode).ModeState = s.ModeState ∧ (fn_key s code mode).capslock = s.capslock ∧
    (fn_key s code mode).numlock = s.numlock ∧ (fn_key s code mode).scrlock = s.scrlock := by
  unfold fn_key
  split_ifs <;> exact ⟨rfl, rfl, rfl, rfl⟩

theorem ext_key_frame (cfg : Config) (s : KbdState) (mode : Nat) :
    (ext_key cfg s mode).ModeState = s.ModeState ∧ (ext_key cfg s mode).capslock = s.capslock ∧
    (ext_key cfg s mode).numlock = s.numlock ∧ (ext_key cfg s mode).scrlock = s.scrlock := by
  unfold ext_key
  simp only []
  split_ifs <;> exact ⟨rfl, rfl, rfl, rfl⟩

/-- An event that is not a status key changes neither `ModeState` nor a latch. -/
theorem keyboard_irq_frame (cfg : Config) (s : KbdState) (raw : Nat)
    (h : raw = 0xE0 ∨ classify (raw &&& 0x7F) &&& 0xC0 ≠ 0) :
    (keyboard_irq cfg s raw).ModeState = s.ModeState ∧
    (keyboard_irq cfg s raw).capslock = s.capslock ∧
    (keyboard_irq cfg s raw).numlock = s.numlock ∧
    (keyboard_irq cfg s raw).scrlock = s.scrlock := by
  unfold keyboard_irq
  simp only []
  split_ifs with h1 h2 h3
  · exact ⟨rfl, rfl, rfl, rfl⟩
  · exact ⟨rfl, rfl, rfl, rfl⟩
  · rcases h with h | h
    · exact absurd h h2
    · exact absurd h3 h
  · exact ⟨rfl, rfl, rfl, rfl⟩
  · exact fn_key_frame _ _ _
  · exact ext_key_frame _ _ _
  · exact simple_key_frame _ _ _

set_option maxRecDepth 100000 in
theorem status_modes : ∀ c, c < 0x80 → classify c &&& 0xC0 = 0 →
    classify c ∈ [CTRL, LSHIFT, RSHIFT, ALT, CAPS, NUM, SLOCK] ∧
    (classify c = CAPS → c = 0x3A) ∧ (classify c = NUM → c = 0x45) := by
  decide

theorem altgr_mode_cases (cfg : Config) (mode : Nat) (e : Bool)
    (h : mode ∈ [CTRL, LSHIFT, RSHIFT, ALT, CAPS, NUM, SLOCK]) :
    altgr_mode cfg mode e ∈ [CTRL, LSHIFT, RSHIFT, ALT, CAPS, NUM, SLOCK, ALT_GR] ∧
    (altgr_mode cfg mode e = CAPS → mode = CAPS) ∧ (altgr_mode cfg mode e = NUM → mode = NUM) := by
  unfold altgr_mode
  split_ifs with h1
  · refine ⟨by simp, fun h2 => absurd h2 (by decide), fun h2 => absurd h2 (by decide)⟩
  · refine ⟨?_, id, id⟩
    simp only [List.mem_cons] at h ⊢
    tauto

theorem status_key_fields (cfg : Config) (s : KbdState) (mode0 rel m : Nat) (e : Bool)
    (hm : altgr_mode cfg mode0 e = m) (hlt : m < 2 ^ 16) (hms : s.ModeState < 2 ^ 16) :
    (status_key cfg s mode0 e rel).ModeState < 2 ^ 16 ∧
    (∀ k, m.testBit k = false →
      (status_key cfg s mode0 e rel).ModeState.testBit k = s.ModeState.testBit k) ∧
    (m ≠ CAPS → (status_key cfg s mode0 e rel).capslock = s.capslock) ∧
    (m ≠ NUM → (status_key cfg s mode0 e rel).numlock = s.numlock) := by
  have clr : ∀ x, (∀ k, x.testBit k = false →
      (s.ModeState &&& (0xFFFF ^^^ x)).testBit k = s.ModeState.testBit k) := by
    intro x k hk
    rw [testBit_clear _ _ _ hms, hk]; simp
  have clr0 : ∀ k, (s.ModeState &&& (0xFFFF ^^^ 0)).testBit k = s.ModeState.testBit k := by
    intro k; rw [testBit_clear _ _ _ hms]; simp
  unfold status_key
  rw [hm]
  simp only []
  split_ifs
  all_goals
    simp only [(set_leds_fields _ _).1, (set_leds_fields _ _).2.1, (set_leds_fields _ _).2.2.1]
    refine ⟨?_, ?_, ?_, ?_⟩
    · first
      | exact clear_lt _ _ hms
      | exact Nat.or_lt_two_pow hms hlt
    · intro k hk
      first
      | exact clr0 k
      | exact clr m k hk
      | (rw [Nat.testBit_or, hk]; simp)
    · intro h
      trivial
    · intro h
      trivial

theorem irq_lock (cfg : Config) (s : KbdState) (L : LockKey) (raw : Nat) (hk : cfg.kraw = 0)
    (hc : raw &&& 0x7F = L.scancode) :
    keyboard_irq cfg s raw =
      status_key cfg { s with E0Prefix := 0 } L.mask (decide (s.E0Prefix ≠ 0)) (raw &&& 0x80) ∧
    ∀ e, altgr_mode cfg L.mask e = L.mask := by
  have h1 : raw ≠ 0xE0 := by
    intro h; rw [h] at hc; revert hc; cases L <;> decide
  have h2 : classify (raw &&& 0x7F) = L.mask := by
    rw [hc]; cases L <;> decide
  have h3 : classify (raw &&& 0x7F) &&& 0xC0 = 0 := by
    rw [h2]; cases L <;> decide
  refine ⟨?_, fun e => ?_⟩
  · rw [keyboard_irq_status cfg s raw hk h1 h3, h2]
  · cases L <;> simp [altgr_mode, LockKey.mask, ALT, CAPS, NUM, SLOCK]

/-- The release of a lock key flips its latch; when the latch is then on,
`ModeState` is left as it was. -/
theorem irq_lock_release (cfg : Config) (s : KbdState) (L : LockKey) (raw : Nat)
    (hk : cfg.kraw = 0) (hms : s.ModeState < 2 ^ 16) (hc : raw &&& 0x7F = L.scancode)
    (hr : raw &&& 0x80 ≠ 0) :
    L.latch (keyboard_irq cfg s raw) = lnot (L.latch s) ∧
    (keyboard_irq cfg s raw).ModeState =
      (if L.latch s = 0 then s.ModeState else s.ModeState &&& (0xFFFF ^^^ L.mask)) := by
  obtain ⟨e1, e2⟩ := irq_lock cfg s L raw hk hc
  have z := clear_zero s.ModeState hms
  rw [e1]
  unfold status_key
  rw [e2]
  simp only [hr, ne_eq, not_false_eq_true, if_true]
  cases L <;> simp only [LockKey.latch, LockKey.mask, CAPS, NUM, SLOCK] <;>
    simp [lnot] <;> split_ifs <;> simp_all

theorem irq_lock_press (cfg : Config) (s : KbdState) (L : LockKey) (raw : Nat)
    (hk : cfg.kraw = 0) (hc : raw &&& 0x7F = L.scancode) (hr : raw &&& 0x80 = 0) :
    keyboard_irq cfg s raw = { s with E0Prefix := 0, ModeState := s.ModeState ||| L.mask } := by
  obtain ⟨e1, e2⟩ := irq_lock cfg s L raw hk hc
  rw [e1, hr, status_key_press, e2]

/-- The bit of CapsLock or NumLock as a bit position, clear in every other
status mode. -/
theorem lock_bit (L : LockKey) (hL : L ≠ LockKey.ScrollLock) :
    ∃ k, L.mask.testBit k = true ∧
      (∀ m ∈ [CTRL, LSHIFT, RSHIFT, ALT, CAPS, NUM, SLOCK, ALT_GR], m ≠ L.mask →
        m.testBit k = false) ∧
      ∀ s : KbdState, (L.bitOn s ↔ s.ModeState.testBit k = true) := by
  cases L
  · exact ⟨4, by decide, by decide, bitOn_caps⟩
  · exact ⟨5, by decide, by decide, bitOn_num⟩
  · exact absurd rfl hL

/-- An event of another key changes neither the bit nor the latch of `L`. -/
theorem irq_other (cfg : Config) (s : KbdState) (L : LockKey) (raw : Nat)
    (hk : cfg.kraw = 0) (hL : L ≠ LockKey.ScrollLock) (hms : s.ModeState < 2 ^ 16)
    (hc : raw &&& 0x7F ≠ L.scancode) :
    (keyboard_irq cfg s raw).ModeState < 2 ^ 16 ∧
    (L.bitOn (keyboard_irq cfg s raw) ↔ L.bitOn s) ∧
    L.latch (keyboard_irq cfg s raw) = L.latch s := by
  obtain ⟨k, -, hk1, hk2⟩ := lock_bit L hL
  by_cases hst : raw = 0xE0 ∨ classify (raw &&& 0x7F) &&& 0xC0 ≠ 0
  · obtain ⟨f1, f2, f3, f4⟩ := keyboard_irq_frame cfg s raw hst
    refine ⟨by rw [f1]; exact hms, by rw [hk2, hk2, f1], ?_⟩
    cases L <;> simp [LockKey.latch, f2, f3, f4]
  · have h1 : raw ≠ 0xE0 := fun h => hst (Or.inl h)
    have h3 : classify (raw &&& 0x7F) &&& 0xC0 = 0 := by
      by_contra h; exact hst (Or.inr h)
    obtain ⟨m1, m2, m3⟩ := status_modes (raw &&& 0x7F) (and_7F_lt raw) h3
    obtain ⟨a1, a2, a3⟩ := altgr_mode_cases cfg _ (decide (s.E0Prefix ≠ 0)) m1
    generalize hm : altgr_mode cfg (classify (raw &&& 0x7F)) (decide (s.E0Prefix ≠ 0)) = m
      at a1 a2 a3
    have hlt : m < 2 ^ 16 := by
      simp only [List.mem_cons, List.mem_singleton, List.not_mem_nil, or_false] at a1
      rcases a1 with h | h | h | h | h | h | h | h <;> subst h <;> decide
    have hne : m ≠ L.mask := by
      intro h
      cases L
      · exact hc (m2 (a2 h))
      · exact hc (m3 (a3 h))
      · exact hL rfl
    have hbit : m.testBit k = false := hk1 m a1 hne
    obtain ⟨g1, g2, g3, g4⟩ := status_key_fields cfg { s with E0Prefix := 0 } _
      (raw &&& 0x80) m (decide (s.E0Prefix ≠ 0)) hm hlt hms
    rw [keyboard_irq_status cfg s raw hk h1 h3]
    refine ⟨g1, by rw [hk2, hk2, g2 k hbit], ?_⟩
    cases L
    · exact g3 hne
    · exact g4 hne
    · exact absurd rfl hL

theorem latchedBit_step (cfg : Config) (L : LockKey) (s : KbdState) (down : Bool) (b : Nat)
    (hk : cfg.kraw = 0) (hL : L ≠ LockKey.ScrollLock) (inv : LatchedBit L s down)
    (hp : b &&& 0x7F = L.scancode → b &&& 0x80 ≠ 0 → down = true) :
    LatchedBit L (keyboard_irq cfg s b)
      (if b &&& 0x7F = L.scancode then decide (b &&& 0x80 = 0) else down) := by
  obtain ⟨hms, i1, i2⟩ := inv
  obtain ⟨k, km, -, kb⟩ := lock_bit L hL
  by_cases hc : b &&& 0x7F = L.scancode
  · rw [if_pos hc]
    by_cases hr : b &&& 0x80 = 0
    · have e := irq_lock_press cfg s L b hk hc hr
      have hbit : L.bitOn (keyboard_irq cfg s b) := by
        rw [kb, e]; simp [Nat.testBit_or, km]
      refine ⟨?_, fun _ => hbit, fun _ => hbit⟩
      rw [e]
      exact Nat.or_lt_two_pow hms (by cases L <;> decide)
    · obtain ⟨l1, l2⟩ := irq_lock_release cfg s L b hk hms hc hr
      have hon : L.bitOn s := i1 (hp hc hr)
      refine ⟨?_, ?_, ?_⟩
      · rw [l2]; split_ifs
        · exact hms
        · exact clear_lt _ _ hms
      · intro h; simp [hr] at h
      · intro h
        unfold LockKey.latchOn at h
        rw [l1, lnot_ne_zero] at h
        rw [kb, l2, if_pos h, ← kb]
        exact hon
  · rw [if_neg hc]
    obtain ⟨o1, o2, o3⟩ := irq_other cfg s L b hk hL hms hc
    refine ⟨o1, fun h => o2.2 (i1 h), fun h => o2.2 (i2 ?_)⟩
    unfold LockKey.latchOn at h ⊢
    rw [o3] at h
    exact h

theorem latchedBit_run (cfg : Config) (L : LockKey) (hk : cfg.kraw = 0)
    (hL : L ≠ LockKey.ScrollLock) (bytes : List Nat) :
    ∀ (s : KbdState) (down : Bool), LatchedBit L s down → releases_paired L down bytes →
      LatchedBit L (keyboard_irqs cfg s bytes) (key_down L down bytes) := by
  induction bytes with
  | nil => intro s down inv _; exact inv
  | cons b bs ih =>
    intro s down inv hp
    have hstep := latchedBit_step cfg L s down b hk hL inv (by
      intro hc hr
      unfold releases_paired at hp
      rw [if_pos hc, if_neg hr] at hp
      exact (Bool.and_eq_true _ _ ▸ hp).1)
    have hrest : releases_paired L
        (if b &&& 0x7F = L.scancode then decide (b &&& 0x80 = 0) else down) bs = true := by
      unfold releases_paired at hp
      by_cases hc : b &&& 0x7F = L.scancode
      · rw [if_pos hc] at hp ⊢
        by_cases hr : b &&& 0x80 = 0
        · rw [if_pos hr] at hp; simpa [hr] using hp
        · rw [if_neg hr] at hp; simpa [hr] using (Bool.and_eq_true _ _ ▸ hp).2
      · rw [if_neg hc] at hp ⊢; exact hp
    have := ih _ _ hstep hrest
    simpa [keyboard_irqs, key_down] using this

/-- C15 (as amended): for CapsLock and NumLock, in every state reached from the
boot state by a byte sequence in which each release of the key comes while the
key is down, the bit of the key is set whenever its latch is on.  In any state,
a release of the key that turns the latch on leaves `ModeState` as it was. -/
theorem latched_bit_invariant (cfg : Config) (L : LockKey) (bytes : List Nat)
    (hk : cfg.kraw = 0) (hL : L ≠ LockKey.ScrollLock)
    (hp : releases_paired L false bytes = true) :
    (L.latchOn (keyboard_irqs cfg KbdState.init bytes) →
      L.bitOn (keyboard_irqs cfg KbdState.init bytes)) ∧
    (∀ (s : KbdState) (raw : Nat), s.ModeState < 2 ^ 16 → raw &&& 0x7F = L.scancode →
      raw &&& 0x80 ≠ 0 → L.latchOn (keyboard_irq cfg s raw) →
      (keyboard_irq cfg s raw).ModeState = s.ModeState) := by
  refine ⟨?_, ?_⟩
  · have inv0 : LatchedBit L KbdState.init false := by
      refine ⟨by decide, fun h => absurd h (by decide), fun h => ?_⟩
      exfalso; revert h; cases L <;> decide
    exact (latchedBit_run cfg L hk hL bytes _ _ inv0 hp).2.2
  · intro s raw hms hc hr h
    obtain ⟨l1, l2⟩ := irq_lock_release cfg s L raw hk hms hc hr
    unfold LockKey.latchOn at h
    rw [l1, lnot_ne_zero] at h
    rw [l2, if_pos h]

/-- Witness of C15: CapsLock pressed and released, then the key `a`. -/
theorem latched_bit_invariant_witness :
    LockKey.CapsLock.bitOn (keyboard_irqs Config.sample KbdState.init [0x3A, 0xBA, 0x1E]) :=
  (latched_bit_invariant Config.sample LockKey.CapsLock [0x3A, 0xBA, 0x1E] rfl (by decide)
    rfl).1 (by decide)

/-- Counterexample to C15 as stated: the release byte of CapsLock (of NumLock)
as the first byte after boot turns the latch on and leaves the bit clear. -/
theorem release_without_press :
    LockKey.CapsLock.latchOn (keyboard_irqs Config.sample KbdState.init [0xBA]) ∧
    ¬ LockKey.CapsLock.bitOn (keyboard_irqs Config.sample KbdState.init [0xBA]) ∧
    LockKey.NumLock.latchOn (keyboard_irqs Config.sample KbdState.init [0xC5]) ∧
    ¬ LockKey.NumLock.bitOn (keyboard_irqs Config.sample KbdState.init [0xC5]) := by
  decide

end KbdScancode
